import Mathlib

/-!
Verification development for the swept-frequency analyzer acquisition core
(`vna.py`): segment model, sweep programming payloads, the two acquisition
modes, the Lorentzian-fit pipeline, and the auto-tracking controller.

Modelling conventions.
Machine floats are modelled as exact rationals (`ℚ`).  External numeric
routines that the source merely calls (`numpy.sqrt`, `math.log10`,
`scipy.optimize.curve_fit`) are abstracted as explicit function parameters,
so every definition stays computable; the source's call sites — which
arguments are passed, in which order, and what is done with the results —
are translated faithfully.  `VisaIOError` is modelled as `TransportError`;
instrument I/O is modelled by a `Link` record of oracles, and the sampling
and setup procedures run in a state monad `M` that records the sequence of
issued device commands (the trace) and aborts on the first transport error,
mirroring Python exception propagation.
-/

/-- Transport-level I/O failure, modelling `pyvisa.errors.VisaIOError`. -/
structure TransportError where
  code : ℕ
deriving DecidableEq, Repr

/-- One measurement window, from `class Segment` in `vna.py`.  The
constructor there also records `f0_default`/`span_default` and sets
`enabled = True`; see `Segment.init`. -/
structure Segment where
  name : String
  f0 : ℚ
  span : ℚ
  f0_default : ℚ
  span_default : ℚ
  points : ℕ
  ifbw : ℚ
  power : ℚ
  enabled : Bool
deriving DecidableEq, Repr

/-- The `Segment.__init__` constructor: defaults record the initial
geometry and the segment starts enabled. -/
def Segment.init (name : String) (f0 span : ℚ) (points : ℕ) (ifbw power : ℚ) : Segment :=
  { name := name, f0 := f0, span := span, f0_default := f0, span_default := span,
    points := points, ifbw := ifbw, power := power, enabled := true }

/-- Per-segment fields of the configuration input (one entry of the
`config["segments"]` mapping). -/
structure SegmentInput where
  f0 : ℚ
  span : ℚ
  points : ℕ
  ifbw : ℚ
  power : ℚ
deriving DecidableEq, Repr

/-- The configuration dictionary handed to `VNA.setup`; the segment map is
kept as an association list in its (insertion) iteration order. -/
structure ConfigInput where
  segments : List (String × SegmentInput)
  track_frequency : Bool
  track_span : Bool
  use_markers : Bool
  bandwidth_factor : ℚ
deriving DecidableEq, Repr

/-- Runtime configuration, from `class VNAConfig` in `vna.py`. -/
structure VNAConfig where
  segments : List Segment
  track_freq : Bool
  track_span : Bool
  use_markers : Bool
  bw_factor : ℚ
  bw_factor_override : Option ℚ
  track_enabled : Bool
deriving DecidableEq, Repr

/-- The `VNAConfig.__init__` constructor: build one `Segment` per entry of
the segment map, then sort the list by `f0` (`self.segments.sort(key=...)`,
a stable sort modelled by `List.mergeSort`); the override starts unset and
tracking starts enabled. -/
def VNAConfig.init (config : ConfigInput) : VNAConfig :=
  let segs := config.segments.map fun p =>
    Segment.init p.1 p.2.f0 p.2.span p.2.points p.2.ifbw p.2.power
  { segments := segs.mergeSort fun a b => decide (a.f0 ≤ b.f0),
    track_freq := config.track_frequency,
    track_span := config.track_span,
    use_markers := config.use_markers,
    bw_factor := config.bandwidth_factor,
    bw_factor_override := none,
    track_enabled := true }

/-- The `VNAConfig.get_bw_factor` accessor: the override wins when present,
else the nominal factor. -/
def VNAConfig.get_bw_factor (cfg : VNAConfig) : ℚ :=
  match cfg.bw_factor_override with
  | some f => f
  | none => cfg.bw_factor

/-- The deferred mutation `VNA.set_bw_factor_override`: store the factor
(`none` models the Python `None` used to clear the override). -/
def set_bw_factor_override (cfg : VNAConfig) (factor : Option ℚ) : VNAConfig :=
  { cfg with bw_factor_override := factor }

/-- The pure decision function `track_window(center, span, f0, bw,
center_err, span_err, bw_factor)` of `vna.py`.  Its Python signature
defaults are `center_err=0.8`, `span_err=0.3`, `bw_factor=8.0`; the single
call site passes only `bw_factor`, so the other two always take their
defaults.  Returns `(retrackf, retracks)`. -/
def track_window (center span f0 bw center_err span_err bw_factor : ℚ) : Bool × Bool :=
  let ferr := |center - f0| + bw / 2
  let retrackf := decide (ferr > span * center_err * (1/2))
  let retracks := decide ((bw * bw_factor) / span > 1 + span_err)
    || decide (span / (bw * bw_factor) > 1 + span_err)
  (retrackf, retracks)

/-- The auto-tracking pass of `VNA.sample` (the loop over
`zip(self.cfg.segments, data.f0, data.bw)`): disabled segments are skipped;
for an enabled segment with a fit result, `track_window` is consulted and,
when `(trackf and track_freq) or (tracks and track_span)` holds, `f0` is
set to the fitted center if `track_freq` and `span` to `bw * factor` if
`track_span`.  Returns the updated segment list and the `retracked` flag.
An enabled segment paired with `none` cannot arise from either acquisition
branch of `VNA.sample` when a sample is produced; it is left unchanged. -/
def track_pass (tf ts : Bool) (factor : ℚ) :
    List Segment → List (Option (ℚ × ℚ)) → List Segment × Bool
  | [], _ => ([], false)
  | segs, [] => (segs, false)
  | seg :: segs, r :: rs =>
    let rest := track_pass tf ts factor segs rs
    if seg.enabled then
      match r with
      | none => (seg :: rest.1, rest.2)
      | some (f0, bw) =>
        let tw := track_window seg.f0 seg.span f0 bw (4/5) (3/10) factor
        if (tw.1 && tf) || (tw.2 && ts) then
          ({ seg with f0 := if tf then f0 else seg.f0,
                      span := if ts then bw * factor else seg.span } :: rest.1, true)
        else
          (seg :: rest.1, rest.2)
    else
      (seg :: rest.1, rest.2)

/-- The slope returned by `scipy.stats.linregress(f, a)`: the ordinary
least-squares slope `cov(x, y) / var(x)`, written with the classical sums
formula; exact rational arithmetic (division by zero yields `0` in `ℚ`,
while the degenerate inputs make `linregress` return `nan`). -/
def linregress_slope (x y : List ℚ) : ℚ :=
  let n : ℚ := x.length
  let sx := x.sum
  let sy := y.sum
  let sxy := ((x.zip y).map fun p => p.1 * p.2).sum
  let sxx := (x.map fun v => v * v).sum
  (n * sxy - sx * sy) / (n * sxx - sx * sx)

/-- Maximum of a rational list, modelling `np.max` (which raises on an
empty array; the empty case here returns the head default `0` and is never
used under the nonemptiness hypotheses of the theorems below). -/
def lmax : List ℚ → ℚ
  | [] => 0
  | x :: xs => xs.foldl max x

/-- Minimum of a rational list, modelling `np.min` (same conventions as
`lmax`). -/
def lmin : List ℚ → ℚ
  | [] => 0
  | x :: xs => xs.foldl min x

/-- Result record of `lorentz_fit`, in the source's return order
`(bw, f0, q, il)`.  The source's last step is
`pmax = 20*np.log10(pmax*maxa)`; the logarithm is the external float
routine `np.log10`, abstracted below as the parameter `log10`. -/
structure FitResult where
  bw : ℚ
  f0 : ℚ
  q : ℚ
  il : ℚ
deriving DecidableEq, Repr

/-- Signature of `scipy.optimize.curve_fit` as used by `lorentz_fit`,
abstracted: it receives the x-data, the y-data, the optional `sigma`
weighting sequence, and the initial parameter triple, and returns the
fitted `(f0, bw, pmax)` triple.  The model function `lorentz_fn` is fixed
at the call site and is part of the solver's meaning, not of the data flow
modelled here.  The source calls `curve_fit` WITHOUT a `sigma` argument,
which in scipy means an unweighted fit; the `Option (List ℚ)` slot makes
that visible in the embedding. -/
abbrev Solver := List ℚ → List ℚ → Option (List ℚ) → ℚ × ℚ × ℚ → ℚ × ℚ × ℚ

/-- The `lorentz_fit(freq, ampl)` pipeline of `vna.py`, translated from the
source: normalize amplitude by its peak, compute `weights = norma*norma`
(computed by the source but never passed to `curve_fit`), normalize
frequency to the input span, run the solver from the default start
`(f0, bw, pmax) = (0.5, 0.5, 1.0)` (the Python default arguments, used at
the only call site) with NO sigma, then de-normalize:
`f0 = f0*fspan + minf`, `bw = |bw|*fspan`, and return
`(bw, f0, f0/bw, 20*log10(pmax*maxa))`. -/
def lorentz_fit (log10 : ℚ → ℚ) (solver : Solver) (freq ampl : List ℚ) : FitResult :=
  let maxa := lmax ampl
  let norma := ampl.map fun a => a / maxa
  let weights := norma.map fun a => a * a
  let minf := lmin freq
  let maxf := lmax freq
  let fspan := maxf - minf
  let normf := freq.map fun f => (f - minf) / fspan
  -- dead binding in the source (`weights` is computed and unused); keep it
  -- observable so the call below provably ignores it
  let _ := weights
  let fit := solver normf norma none (1/2, 1/2, 1)
  let f0 := fit.1 * fspan + minf
  let bw := |fit.2.1| * fspan
  { bw := bw, f0 := f0, q := f0 / bw, il := 20 * log10 (fit.2.2 * maxa) }

/-- Rendering of the SPEC's words for `lorentz_fit` ("weight samples by
squared normalized amplitude"): identical to `lorentz_fit` except that the
computed weights ARE handed to the solver as its sigma argument.  This
definition follows the spec, not the source; it exists only to be compared
with `lorentz_fit`. -/
def lorentz_fit_spec_weighted (log10 : ℚ → ℚ) (solver : Solver) (freq ampl : List ℚ) :
    FitResult :=
  let maxa := lmax ampl
  let norma := ampl.map fun a => a / maxa
  let weights := norma.map fun a => a * a
  let minf := lmin freq
  let maxf := lmax freq
  let fspan := maxf - minf
  let normf := freq.map fun f => (f - minf) / fspan
  let fit := solver normf norma (some weights) (1/2, 1/2, 1)
  let f0 := fit.1 * fspan + minf
  let bw := |fit.2.1| * fspan
  { bw := bw, f0 := f0, q := f0 / bw, il := 20 * log10 (fit.2.2 * maxa) }

/-- Outcome type of one `lorentz_fit` call as seen by the acquisition
cycle: the quadruple `(bw, f0, q, il)`, or `none` when the fit raises
(`RuntimeError`/`ValueError` in the source). -/
abbrev Fit4 := ℚ × ℚ × ℚ × ℚ

/-- Fit oracle used by the raw-sweep branch of `VNA.sample`: given the
windowed frequency and amplitude slices it either returns the fit
quadruple or fails. -/
abbrev FitOracle := List ℚ → List ℚ → Option Fit4

/-- One entry of the raw-sweep per-segment results: the fit quadruple
together with the frequency and amplitude slices appended to
`data.freq` / `data.ampl`. -/
abbrev RawEntry := Fit4 × List ℚ × List ℚ

/-- Python window slice `xs[start : start + n]`. -/
def windowSlice (start n : ℕ) (xs : List ℚ) : List ℚ := (xs.drop start).take n

/-- The lost-track nudge of `VNA.sample` lines 112–117: when
`track_freq and track_enabled`, a strictly positive regression slope of
the windowed amplitude against frequency moves `f0` forward by one full
span, any other slope moves it backward by one full span; otherwise the
segment is untouched. -/
def nudge_segment (tf te : Bool) (f a : List ℚ) (seg : Segment) : Segment :=
  if tf && te then
    if linregress_slope f a > 0 then { seg with f0 := seg.f0 + seg.span }
    else { seg with f0 := seg.f0 - seg.span }
  else seg

/-- The per-segment loop of the raw-sweep branch of `VNA.sample`
(lines 95–124): walk the segments with a cumulative point offset `start`
that advances only across enabled segments; an enabled segment's window is
`freq[start : start+points]` / `ampl[start : start+points]`; a successful
fit appends a result entry, a failed fit marks the cycle lost and — when
`track_freq and track_enabled` — nudges the segment by one full span in
the direction of the regression slope of amplitude against frequency; a
disabled segment appends the absent marker and consumes no points.
Returns `(results, lost, updated segments)`. -/
def raw_segments (fit : FitOracle) (tf te : Bool) (freq ampl : List ℚ) :
    List Segment → ℕ → List (Option RawEntry) × Bool × List Segment
  | [], _ => ([], false, [])
  | seg :: rest, start =>
    if seg.enabled then
      let f := windowSlice start seg.points freq
      let a := windowSlice start seg.points ampl
      match fit f a with
      | some r =>
        let rec' := raw_segments fit tf te freq ampl rest (start + seg.points)
        (some (r, f, a) :: rec'.1, rec'.2.1, seg :: rec'.2.2)
      | none =>
        let rec' := raw_segments fit tf te freq ampl rest (start + seg.points)
        (rec'.1, true, nudge_segment tf te f a seg :: rec'.2.2)
    else
      let rec' := raw_segments fit tf te freq ampl rest start
      (none :: rec'.1, rec'.2.1, seg :: rec'.2.2)

/-- One value of a segment-list payload: the device encodings mix a string
header ("SSTOP") with numbers. -/
inductive SegVal where
  | str (s : String)
  | num (q : ℚ)
deriving DecidableEq, Repr

/-- The per-enabled-segment tuple of the N5232A segment-list encoding
(`[1, points, f0, span, ifbw, 0, power]` appended by `set_segments`). -/
def seg_tuple_n5232a (s : Segment) : List SegVal :=
  [.num 1, .num s.points, .num s.f0, .num s.span, .num s.ifbw, .num 0, .num s.power]

/-- The per-enabled-segment tuple of the E5071-family segment-data encoding
(`[f0, span, points, ifbw, power]` appended by `set_segments`). -/
def seg_tuple_e5071 (s : Segment) : List SegVal :=
  [.num s.f0, .num s.span, .num s.points, .num s.ifbw, .num s.power]

/-- The numeric payload built by `VNA.set_segments`: a model-specific
header whose count slot (index 1 for the N5232A encoding, index 6 for the
E5071 encoding) holds the number of ENABLED segments, followed by one tuple
per enabled segment; disabled segments contribute nothing.  The source
builds the list with a placeholder count and patches it after the loop;
the result is the same list. -/
def set_segments_data (model : String) (segments : List Segment) : List SegVal :=
  let ena := segments.filter fun s => s.enabled
  if model = "N5232A" then
    [.str "SSTOP", .num ena.length] ++ (ena.map seg_tuple_n5232a).flatten
  else
    [.num 5, .num 1, .num 1, .num 1, .num 0, .num 0, .num ena.length]
      ++ (ena.map seg_tuple_e5071).flatten

/-- One acquisition cycle's result, from `class Sample`: parallel
per-segment slots.  In the source the raw-sweep branch appends `None` for
a disabled segment and a value otherwise; both kinds of slot are modelled
with `Option`, marker-mode slots always carrying `some`. -/
structure SampleData where
  bw : List (Option ℚ)
  f0 : List (Option ℚ)
  q : List (Option ℚ)
  il : List (Option ℚ)
  freq : List (Option (List ℚ))
  ampl : List (Option (List ℚ))
deriving DecidableEq, Repr

/-- The Instrument Link: pure oracles giving each transport operation's
outcome.  Commands are identified by their SCPI template (channel/format
arguments elided); `markerData` models
`query_ascii_values(":CALC:MARK:BWID:DATA?")` for a given marker index,
already unpacked into the `(bw, f0, q, il)` quadruple. -/
structure Link where
  resetR : Except TransportError Unit
  write : String → Except TransportError Unit
  query : String → Except TransportError String
  queryValues : String → Except TransportError (List ℚ)
  writeValues : String → List SegVal → Except TransportError Unit
  markerData : ℕ → Except TransportError Fit4

/-- One recorded device interaction (the trace lets theorems observe that
a sweep reprogramming was actually issued). -/
inductive Event where
  | reset
  | write (cmd : String)
  | query (cmd : String)
  | queryValues (cmd : String)
  | writeValues (cmd : String) (payload : List SegVal)
  | markerRead (count : ℕ)
deriving DecidableEq, Repr

/-- Computation monad of the embedded procedures: threads the event trace
and aborts on the first `TransportError`, mirroring Python exception
propagation out of `VNA.setup` / `VNA.sample`. -/
def M (α : Type) : Type :=
  List Event → Except TransportError (α × List Event)

instance : Monad M where
  pure a := fun t => .ok (a, t)
  bind x f := fun t => (x t).bind fun p => f p.1 p.2

/-- Lift a link outcome into `M`. -/
def liftE {α : Type} (x : Except TransportError α) : M α := fun t =>
  match x with
  | .ok v => .ok (v, t)
  | .error e => .error e

/-- Record an event. -/
def emit (e : Event) : M Unit := fun t => .ok ((), t ++ [e])

/-- Issue `self.res.reset()`. -/
def doReset (link : Link) : M Unit := do
  emit .reset
  liftE link.resetR

/-- Issue a `write` command. -/
def doWrite (link : Link) (c : String) : M Unit := do
  emit (.write c)
  liftE (link.write c)

/-- Issue a `query` command. -/
def doQuery (link : Link) (c : String) : M String := do
  emit (.query c)
  liftE (link.query c)

/-- Issue a `query_ascii_values` command. -/
def doQueryValues (link : Link) (c : String) : M (List ℚ) := do
  emit (.queryValues c)
  liftE (link.queryValues c)

/-- Issue a `write_ascii_values` command. -/
def doWriteValues (link : Link) (c : String) (p : List SegVal) : M Unit := do
  emit (.writeValues c p)
  liftE (link.writeValues c p)

/-- The `VNA.set_segments` procedure: for the N5232A, two control writes
then the segment-list payload; otherwise the single segment-data payload
(channel argument elided from the command templates). -/
def set_segmentsM (link : Link) (model : String) (segments : List Segment) : M Unit :=
  if model = "N5232A" then do
    doWrite link ":SENS:SEGM:BWID:CONT"
    doWrite link ":SENS:SEGM:POW:CONT"
    doWriteValues link ":SENS:SEGM:LIST" (set_segments_data model segments)
  else
    doWriteValues link ":SENS:SEGM:DATA" (set_segments_data model segments)

/-- Session state bound by `VNA.setup` and threaded through `VNA.sample`:
the configuration, the detected model string, and the marker-mode
staleness cache `last_sample` (the `[data.bw, data.f0, data.q]` triple of
the previously accepted readout). -/
structure VNAState where
  cfg : VNAConfig
  model : String
  last_sample : Option (List ℚ × List ℚ × List ℚ)
deriving Repr

/-- Split a character list at every occurrence of `sep`, modelling
Python's `str.split(sep)` (structurally recursive so that concrete
instances reduce; `"".split(",") = [""]` likewise holds). -/
def splitOnChar (sep : Char) : List Char → List (List Char)
  | [] => [[]]
  | c :: rest =>
    let r := splitOnChar sep rest
    if c = sep then [] :: r
    else (c :: r.headI) :: r.tail

/-- Strip leading and trailing whitespace, modelling Python's
`str.strip()`. -/
def trimChars (cs : List Char) : List Char :=
  ((cs.dropWhile Char.isWhitespace).reverse.dropWhile Char.isWhitespace).reverse

/-- The model detection `devname.split(",")[1].strip()` of `VNA.setup`
(and `VNA.match_device`); out-of-range indexing (an `IndexError` in
Python) is modelled by the empty default. -/
def parse_model (devname : String) : String :=
  String.mk (trimChars ((splitOnChar ',' devname.data).getD 1 []))

/-- The `VNA.setup` procedure: build the configuration, reset, detect the
model from `*IDN?`, force `use_markers` off on the N5232A, issue the
static sweep configuration writes, program the segments, and clear the
staleness cache.  The `time.sleep(1.0)` is untimed here. -/
def setup (link : Link) (config : ConfigInput) : M VNAState := do
  let cfg0 := VNAConfig.init config
  doReset link
  let devname ← doQuery link "*IDN?"
  let model := parse_model devname
  let cfg := if model = "N5232A" then { cfg0 with use_markers := false } else cfg0
  doWrite link ":CALC1:PAR1:DEF"
  doWrite link ":INIT1:CONT"
  if !cfg.use_markers then
    if model = "N5232A" then doWrite link ":TRIG:SOUR MAN"
    else doWrite link ":TRIG:SOUR BUS"
  else pure ()
  doWrite link ":SENS1:SWE:TYPE"
  doWrite link ":SENS1:SWE:DELAY"
  doWrite link ":SENS1:SWE:GEN"
  set_segmentsM link model cfg.segments
  doWrite link ":DISP:WIND1:TRAC1:Y:AUTO"
  if cfg.use_markers then do
    doWrite link ":CALC1:MARK:BWID"
    doWrite link ":CALC1:MARK:FUNC:MULT:TYPE"
    doWrite link ":CALC1:MARK:FUNC:EXEC"
    doWrite link ":CALC1:MARK:FUNC:MULT:TRAC"
  else pure ()
  pure { cfg := cfg, model := model, last_sample := none }

/-- The marker loop of `VNA.sample` from index `i`: reads `n` remaining
markers `i+1, i+2, ...` in order; the first transport error aborts the
whole loop (it is caught by the caller). -/
def readMarkersFrom (link : Link) : ℕ → ℕ → Except TransportError (List Fit4)
  | _, 0 => .ok []
  | i, n + 1 => do
    let r ← link.markerData (i + 1)
    let rest ← readMarkersFrom link (i + 1) n
    pure (r :: rest)

/-- The marker loop of `VNA.sample`: `get_marker_data(i+1)` for
`i in range(n)`, collected in order. -/
def readMarkers (link : Link) (n : ℕ) : Except TransportError (List Fit4) :=
  readMarkersFrom link 0 n

/-- The `try/except VisaIOError` around the marker loop: a transport error
is swallowed and yields `none`; the loop's reads are recorded as one trace
event. -/
def tryReadMarkers (link : Link) (n : ℕ) : M (Option (List Fit4)) := fun t =>
  match readMarkers link n with
  | .ok rows => .ok (some rows, t ++ [Event.markerRead n])
  | .error _ => .ok (none, t ++ [Event.markerRead n])

/-- Staleness test (`if self.last_sample: if self.last_sample == arr`):
with at least zero segments the cached triple is a 3-element Python list,
always truthy, so truthiness is exactly `Option.isSome`. -/
def stale (last : Option (List ℚ × List ℚ × List ℚ))
    (arr : List ℚ × List ℚ × List ℚ) : Bool :=
  match last with
  | some prev => decide (prev = arr)
  | none => false

/-- Marker-mode sample assembly: every queried quadruple is appended, for
ALL segments (the loop runs over `range(len(segments))` with no enabled
test); `data.freq` / `data.ampl` stay empty in marker mode. -/
def marker_sample_data (rows : List Fit4) : SampleData :=
  { bw := rows.map fun r => some r.1,
    f0 := rows.map fun r => some r.2.1,
    q := rows.map fun r => some r.2.2.1,
    il := rows.map fun r => some r.2.2.2,
    freq := [], ampl := [] }

/-- Raw-sweep sample assembly from the per-segment results of
`raw_segments` (only reached when no segment was lost). -/
def raw_sample_data (results : List (Option RawEntry)) : SampleData :=
  { bw := results.map (Option.map fun e => e.1.1),
    f0 := results.map (Option.map fun e => e.1.2.1),
    q := results.map (Option.map fun e => e.1.2.2.1),
    il := results.map (Option.map fun e => e.1.2.2.2),
    freq := results.map (Option.map fun e => e.2.1),
    ampl := results.map (Option.map fun e => e.2.2) }

/-- Pair the complex sweep trace into `(re, im)` points, modelling
`cplx.reshape((-1, 2)).T` (numpy raises on odd lengths; a trailing odd
element is dropped here, never exercised by the theorems). -/
def toPairs : List ℚ → List (ℚ × ℚ)
  | a :: b :: rest => (a, b) :: toPairs rest
  | _ => []

/-- Command template used by `get_sweep_data`, chosen by model. -/
def sweep_cmd (model : String) : String :=
  if model = "N5232A" then ":CALC:DATA? SDAT" else ":CALC:DATA:SDAT?"

/-- Command template used by `get_freq_data`, chosen by model. -/
def freq_cmd (model : String) : String :=
  if model = "N5232A" then ":CALC:X?" else ":SENS:FREQ:DATA?"

/-- The `get_sweep_data` query. -/
def get_sweep_data (link : Link) (model : String) : M (List ℚ) :=
  doQueryValues link (sweep_cmd model)

/-- The `get_freq_data` query. -/
def get_freq_data (link : Link) (model : String) : M (List ℚ) :=
  doQueryValues link (freq_cmd model)

/-- Amplitude extraction from the interleaved complex trace:
`np.sqrt(cplx[0]**2 + cplx[1]**2)` with the external square root `rsqrt`. -/
def sweep_ampl (rsqrt : ℚ → ℚ) (flat : List ℚ) : List ℚ :=
  (toPairs flat).map fun p => rsqrt (p.1 * p.1 + p.2 * p.2)

/-- Tracking-armed test of `VNA.sample` line 131:
`(track_freq or track_span) and track_enabled`. -/
def tracking_armed (cfg : VNAConfig) : Bool :=
  (cfg.track_freq || cfg.track_span) && cfg.track_enabled

/-- The `zip(self.cfg.segments, data.f0, data.bw)` pairing of the sample's
`f0` and `bw` slots (the segment component is zipped separately by
`track_pass`). -/
def zip_results (dataF0 dataBw : List (Option ℚ)) : List (Option (ℚ × ℚ)) :=
  (dataF0.zip dataBw).map fun p =>
    match p.1, p.2 with
    | some x, some y => some (x, y)
    | _, _ => none

/-- The tail of `VNA.sample` (lines 131–157): when tracking is armed, run
the tracking pass over the segments zipped with the sample's `f0`/`bw`
slots; if any segment tripped, reprogram the sweep and — in marker mode —
force one complete trigger cycle (trigger-source switch, trigger, `*OPC?`,
restore internal source).  Returns the updated configuration. -/
def finish_tracking (link : Link) (model : String) (cfg : VNAConfig)
    (dataF0 dataBw : List (Option ℚ)) : M VNAConfig :=
  if tracking_armed cfg then
    let tp := track_pass cfg.track_freq cfg.track_span cfg.get_bw_factor cfg.segments
      (zip_results dataF0 dataBw)
    let cfg' := { cfg with segments := tp.1 }
    if tp.2 then do
      set_segmentsM link model cfg'.segments
      if cfg'.use_markers then do
        if model = "N5232A" then do
          doWrite link ":TRIG:SOUR MAN"
          doWrite link ":INIT:IMM"
        else do
          doWrite link ":TRIG:SOUR BUS"
          doWrite link ":TRIG:SING"
        let _ ← doQuery link "*OPC?"
        doWrite link ":TRIG:SOUR INT"
      else pure ()
      pure cfg'
    else pure cfg'
  else pure cfg

/-- The model-specific single trigger at the top of a raw-sweep cycle
(`:INIT:IMM` on the N5232A, `:TRIG:SING` otherwise) followed by the
blocking `*OPC?` query. -/
def trigger_sweep (link : Link) (model : String) : M Unit := do
  if model = "N5232A" then doWrite link ":INIT:IMM"
  else doWrite link ":TRIG:SING"
  let _ ← doQuery link "*OPC?"
  pure ()

/-- Marker-mode branch of `VNA.sample`: read every marker (transport
errors caught, yielding no sample), apply the staleness check against
`last_sample`, and on acceptance update the cache BEFORE the tracking
phase, as in the source. -/
def marker_branch (link : Link) (st : VNAState) : M (Option SampleData × VNAState) := do
  match ← tryReadMarkers link st.cfg.segments.length with
  | none => pure (none, st)
  | some rows =>
    let arr := (rows.map fun r => r.1, rows.map fun r => r.2.1,
                rows.map fun r => r.2.2.1)
    if stale st.last_sample arr then pure (none, st)
    else do
      let st1 := { st with last_sample := some arr }
      let data := marker_sample_data rows
      let cfg' ← finish_tracking link st1.model st1.cfg data.f0 data.bw
      pure (some data, { st1 with cfg := cfg' })

/-- Raw-sweep branch of `VNA.sample`: read the complex trace and the
frequency axis, compute amplitudes with the external `rsqrt` (modelling
`np.sqrt`), slice and fit per segment via `raw_segments`, and on any lost
segment reprogram (when `track_freq and track_enabled`) and yield no
sample; otherwise assemble the sample and run the tracking phase. -/
def raw_branch (rsqrt : ℚ → ℚ) (fit : FitOracle) (link : Link) (st : VNAState) :
    M (Option SampleData × VNAState) := do
  let flat ← get_sweep_data link st.model
  let ampl := sweep_ampl rsqrt flat
  let freq ← get_freq_data link st.model
  let rsg := raw_segments fit st.cfg.track_freq st.cfg.track_enabled freq ampl
    st.cfg.segments 0
  let st1 := { st with cfg := { st.cfg with segments := rsg.2.2 } }
  if rsg.2.1 then do
    if st1.cfg.track_freq && st1.cfg.track_enabled then
      set_segmentsM link st1.model st1.cfg.segments
    else pure ()
    pure (none, st1)
  else do
    let data := raw_sample_data rsg.1
    let cfg' ← finish_tracking link st1.model st1.cfg data.f0 data.bw
    pure (some data, { st1 with cfg := cfg' })

/-- The `VNA.sample` procedure: raw-sweep mode first issues the single
trigger and waits on `*OPC?` (marker mode does not), then the mode's
branch runs. -/
def vna_sample (rsqrt : ℚ → ℚ) (fit : FitOracle) (link : Link) (st : VNAState) :
    M (Option SampleData × VNAState) := do
  if !st.cfg.use_markers then trigger_sweep link st.model
  else pure ()
  if st.cfg.use_markers then marker_branch link st
  else raw_branch rsqrt fit link st

/-! Pointwise unfolding lemmas for the trace monad and the link steps. -/

theorem M_bind_apply {α β : Type} (x : M α) (f : α → M β) (t : List Event) :
    (x >>= f) t = (x t).bind fun p => f p.1 p.2 := rfl

theorem M_pure_apply {α : Type} (a : α) (t : List Event) :
    (pure a : M α) t = .ok (a, t) := rfl

theorem except_bind_ok {ε α β : Type} (a : α) (f : α → Except ε β) :
    (Except.ok a).bind f = f a := rfl

theorem except_bind_error {ε α β : Type} (e : ε) (f : α → Except ε β) :
    (Except.error e : Except ε α).bind f = .error e := rfl

theorem doReset_ok {link : Link} (h : link.resetR = .ok ()) (t : List Event) :
    doReset link t = .ok ((), t ++ [.reset]) := by
  simp [doReset, emit, liftE, M_bind_apply, except_bind_ok, except_bind_error, h]

theorem doReset_error {link : Link} {e : TransportError} (h : link.resetR = .error e)
    (t : List Event) : doReset link t = .error e := by
  simp [doReset, emit, liftE, M_bind_apply, except_bind_ok, except_bind_error, h]

theorem doWrite_ok {link : Link} {c : String} (h : link.write c = .ok ())
    (t : List Event) : doWrite link c t = .ok ((), t ++ [.write c]) := by
  simp [doWrite, emit, liftE, M_bind_apply, except_bind_ok, except_bind_error, h]

theorem doWrite_error {link : Link} {c : String} {e : TransportError}
    (h : link.write c = .error e) (t : List Event) : doWrite link c t = .error e := by
  simp [doWrite, emit, liftE, M_bind_apply, except_bind_ok, except_bind_error, h]

theorem doQuery_ok {link : Link} {c : String} {s : String} (h : link.query c = .ok s)
    (t : List Event) : doQuery link c t = .ok (s, t ++ [.query c]) := by
  simp [doQuery, emit, liftE, M_bind_apply, except_bind_ok, except_bind_error, h]

theorem doQuery_error {link : Link} {c : String} {e : TransportError}
    (h : link.query c = .error e) (t : List Event) : doQuery link c t = .error e := by
  simp [doQuery, emit, liftE, M_bind_apply, except_bind_ok, except_bind_error, h]

theorem doQueryValues_ok {link : Link} {c : String} {v : List ℚ}
    (h : link.queryValues c = .ok v) (t : List Event) :
    doQueryValues link c t = .ok (v, t ++ [.queryValues c]) := by
  simp [doQueryValues, emit, liftE, M_bind_apply, except_bind_ok, except_bind_error, h]

theorem doQueryValues_error {link : Link} {c : String} {e : TransportError}
    (h : link.queryValues c = .error e) (t : List Event) :
    doQueryValues link c t = .error e := by
  simp [doQueryValues, emit, liftE, M_bind_apply, except_bind_ok, except_bind_error, h]

theorem doWriteValues_ok {link : Link} {c : String} {p : List SegVal}
    (h : link.writeValues c p = .ok ()) (t : List Event) :
    doWriteValues link c p t = .ok ((), t ++ [.writeValues c p]) := by
  simp [doWriteValues, emit, liftE, M_bind_apply, except_bind_ok, except_bind_error, h]

/-- Trace appended by a successful `set_segmentsM`. -/
def set_segments_events (model : String) (segments : List Segment) : List Event :=
  if model = "N5232A" then
    [.write ":SENS:SEGM:BWID:CONT", .write ":SENS:SEGM:POW:CONT",
     .writeValues ":SENS:SEGM:LIST" (set_segments_data model segments)]
  else
    [.writeValues ":SENS:SEGM:DATA" (set_segments_data model segments)]

/-- Command template carrying the segment-list payload for a model. -/
def reprogram_cmd (model : String) : String :=
  if model = "N5232A" then ":SENS:SEGM:LIST" else ":SENS:SEGM:DATA"

theorem reprogram_event_mem (model : String) (segments : List Segment) :
    Event.writeValues (reprogram_cmd model) (set_segments_data model segments)
      ∈ set_segments_events model segments := by
  by_cases h : model = "N5232A" <;> simp [set_segments_events, reprogram_cmd, h]

theorem set_segmentsM_ok {link : Link}
    (hw : ∀ c, link.write c = .ok ())
    (hwv : ∀ c p, link.writeValues c p = .ok ())
    (model : String) (segments : List Segment) (t : List Event) :
    set_segmentsM link model segments t =
      .ok ((), t ++ set_segments_events model segments) := by
  by_cases h : model = "N5232A" <;>
    simp [set_segmentsM, set_segments_events, h, M_bind_apply,
      doWrite_ok (hw _), doWriteValues_ok (hwv _ _), except_bind_ok]

theorem trigger_sweep_ok {link : Link} {opc : String}
    (hw : ∀ c, link.write c = .ok ())
    (hq : link.query "*OPC?" = .ok opc)
    (model : String) (t : List Event) :
    trigger_sweep link model t =
      .ok ((), t ++ [.write (if model = "N5232A" then ":INIT:IMM" else ":TRIG:SING"),
                     .query "*OPC?"]) := by
  by_cases h : model = "N5232A" <;>
    simp [trigger_sweep, h, M_bind_apply, M_pure_apply,
      doWrite_ok (hw _), doQuery_ok hq, except_bind_ok]

/-- Pure mirror of `finish_tracking`: the configuration it produces and
whether it reprograms. -/
def tracked_cfg (cfg : VNAConfig) (dataF0 dataBw : List (Option ℚ)) : VNAConfig × Bool :=
  if tracking_armed cfg then
    let tp := track_pass cfg.track_freq cfg.track_span cfg.get_bw_factor cfg.segments
      (zip_results dataF0 dataBw)
    ({ cfg with segments := tp.1 }, tp.2)
  else (cfg, false)

theorem finish_tracking_ok {link : Link} {opc : String}
    (hw : ∀ c, link.write c = .ok ())
    (hwv : ∀ c p, link.writeValues c p = .ok ())
    (hq : link.query "*OPC?" = .ok opc)
    (model : String) (cfg : VNAConfig) (dF dB : List (Option ℚ)) (t : List Event) :
    ∃ tr, finish_tracking link model cfg dF dB t =
        .ok ((tracked_cfg cfg dF dB).1, t ++ tr) ∧
      ((tracked_cfg cfg dF dB).2 = true →
        Event.writeValues (reprogram_cmd model)
          (set_segments_data model (tracked_cfg cfg dF dB).1.segments) ∈ tr) := by
  unfold finish_tracking tracked_cfg
  by_cases ha : tracking_armed cfg
  · simp only [ha, if_true]
    set tp := track_pass cfg.track_freq cfg.track_span cfg.get_bw_factor cfg.segments
      (zip_results dF dB) with htp
    by_cases hr : tp.2
    · simp only [hr, if_true]
      by_cases hum : cfg.use_markers
      · by_cases hmod : model = "N5232A"
        · refine ⟨set_segments_events model tp.1 ++
            [.write ":TRIG:SOUR MAN", .write ":INIT:IMM", .query "*OPC?",
             .write ":TRIG:SOUR INT"], ?_, ?_⟩
          · simp [M_bind_apply, M_pure_apply, set_segmentsM_ok hw hwv, hum, hmod,
              doWrite_ok (hw _), doQuery_ok hq, except_bind_ok, List.append_assoc]
          · intro _
            simp [List.mem_append, reprogram_event_mem]
        · refine ⟨set_segments_events model tp.1 ++
            [.write ":TRIG:SOUR BUS", .write ":TRIG:SING", .query "*OPC?",
             .write ":TRIG:SOUR INT"], ?_, ?_⟩
          · simp [M_bind_apply, M_pure_apply, set_segmentsM_ok hw hwv, hum, hmod,
              doWrite_ok (hw _), doQuery_ok hq, except_bind_ok, List.append_assoc]
          · intro _
            simp [List.mem_append, reprogram_event_mem]
      · refine ⟨set_segments_events model tp.1, ?_, ?_⟩
        · simp [M_bind_apply, M_pure_apply, set_segmentsM_ok hw hwv, hum, except_bind_ok]
        · intro _
          simp [reprogram_event_mem]
    · refine ⟨[], by simp [hr, M_pure_apply], by simp [hr]⟩
  · refine ⟨[], by simp [ha, M_pure_apply], by simp [ha]⟩

/-- The `[data.bw, data.f0, data.q]` staleness triple built from a marker
readout. -/
def arr3 (rows : List Fit4) : List ℚ × List ℚ × List ℚ :=
  (rows.map fun r => r.1, rows.map fun r => r.2.1, rows.map fun r => r.2.2.1)

theorem tryReadMarkers_read_ok {link : Link} {n : ℕ} {rows : List Fit4}
    (h : readMarkers link n = .ok rows) (t : List Event) :
    tryReadMarkers link n t = .ok (some rows, t ++ [.markerRead n]) := by
  simp [tryReadMarkers, h]

theorem tryReadMarkers_read_error {link : Link} {n : ℕ} {e : TransportError}
    (h : readMarkers link n = .error e) (t : List Event) :
    tryReadMarkers link n t = .ok (none, t ++ [.markerRead n]) := by
  simp [tryReadMarkers, h]

theorem marker_branch_read_error {link : Link} {st : VNAState} {e : TransportError}
    (h : readMarkers link st.cfg.segments.length = .error e) (t : List Event) :
    marker_branch link st t =
      .ok ((none, st), t ++ [.markerRead st.cfg.segments.length]) := by
  simp [marker_branch, M_bind_apply, M_pure_apply, tryReadMarkers_read_error h,
    except_bind_ok]

theorem marker_branch_stale {link : Link} {st : VNAState} {rows : List Fit4}
    (h : readMarkers link st.cfg.segments.length = .ok rows)
    (hs : stale st.last_sample (arr3 rows) = true) (t : List Event) :
    marker_branch link st t =
      .ok ((none, st), t ++ [.markerRead st.cfg.segments.length]) := by
  simp [marker_branch, M_bind_apply, M_pure_apply, tryReadMarkers_read_ok h,
    except_bind_ok, arr3] at *
  simp [hs, M_pure_apply]

theorem marker_branch_fresh {link : Link} {st : VNAState} {rows : List Fit4} {opc : String}
    (h : readMarkers link st.cfg.segments.length = .ok rows)
    (hs : stale st.last_sample (arr3 rows) = false)
    (hw : ∀ c, link.write c = .ok ())
    (hwv : ∀ c p, link.writeValues c p = .ok ())
    (hq : link.query "*OPC?" = .ok opc) (t : List Event) :
    ∃ tr, marker_branch link st t =
        .ok ((some (marker_sample_data rows),
          { cfg := (tracked_cfg st.cfg (marker_sample_data rows).f0
              (marker_sample_data rows).bw).1,
            model := st.model, last_sample := some (arr3 rows) }),
          t ++ [.markerRead st.cfg.segments.length] ++ tr) ∧
      ((tracked_cfg st.cfg (marker_sample_data rows).f0 (marker_sample_data rows).bw).2
          = true →
        Event.writeValues (reprogram_cmd st.model)
          (set_segments_data st.model
            (tracked_cfg st.cfg (marker_sample_data rows).f0
              (marker_sample_data rows).bw).1.segments) ∈ tr) := by
  obtain ⟨tr, hft, hmem⟩ := finish_tracking_ok hw hwv hq st.model st.cfg
    (marker_sample_data rows).f0 (marker_sample_data rows).bw
    (t ++ [.markerRead st.cfg.segments.length])
  refine ⟨tr, ?_, hmem⟩
  have harr : (rows.map fun r => r.1, rows.map fun r => r.2.1,
      rows.map fun r => r.2.2.1) = arr3 rows := rfl
  simp only [marker_branch, M_bind_apply, M_pure_apply,
    tryReadMarkers_read_ok h, except_bind_ok, harr, hs, Bool.false_eq_true,
    if_false, hft, List.append_assoc]

theorem vna_sample_marker_mode {rsqrt : ℚ → ℚ} {fit : FitOracle} {link : Link}
    {st : VNAState} (hum : st.cfg.use_markers = true) (t : List Event) :
    vna_sample rsqrt fit link st t = marker_branch link st t := by
  simp [vna_sample, hum, M_bind_apply, M_pure_apply, except_bind_ok]

theorem vna_sample_raw_mode {rsqrt : ℚ → ℚ} {fit : FitOracle} {link : Link}
    {st : VNAState} {opc : String} (hum : st.cfg.use_markers = false)
    (hw : ∀ c, link.write c = .ok ())
    (hq : link.query "*OPC?" = .ok opc) (t : List Event) :
    vna_sample rsqrt fit link st t =
      raw_branch rsqrt fit link st
        (t ++ [.write (if st.model = "N5232A" then ":INIT:IMM" else ":TRIG:SING"),
               .query "*OPC?"]) := by
  simp [vna_sample, hum, M_bind_apply, M_pure_apply, trigger_sweep_ok hw hq,
    except_bind_ok]

theorem raw_branch_lost {rsqrt : ℚ → ℚ} {fit : FitOracle} {link : Link}
    {st : VNAState} {flat freqd : List ℚ}
    (hw : ∀ c, link.write c = .ok ())
    (hwv : ∀ c p, link.writeValues c p = .ok ())
    (hsw : link.queryValues (sweep_cmd st.model) = .ok flat)
    (hfr : link.queryValues (freq_cmd st.model) = .ok freqd)
    (hlost : (raw_segments fit st.cfg.track_freq st.cfg.track_enabled freqd
        (sweep_ampl rsqrt flat) st.cfg.segments 0).2.1 = true) (t : List Event) :
    ∃ tr, raw_branch rsqrt fit link st t =
        .ok ((none, { st with cfg := { st.cfg with
            segments := (raw_segments fit st.cfg.track_freq st.cfg.track_enabled freqd
              (sweep_ampl rsqrt flat) st.cfg.segments 0).2.2 } }),
          t ++ [.queryValues (sweep_cmd st.model), .queryValues (freq_cmd st.model)] ++ tr) ∧
      (st.cfg.track_freq && st.cfg.track_enabled = true →
        Event.writeValues (reprogram_cmd st.model)
          (set_segments_data st.model
            (raw_segments fit st.cfg.track_freq st.cfg.track_enabled freqd
              (sweep_ampl rsqrt flat) st.cfg.segments 0).2.2) ∈ tr) := by
  by_cases htk : st.cfg.track_freq && st.cfg.track_enabled
  · refine ⟨set_segments_events st.model
      (raw_segments fit st.cfg.track_freq st.cfg.track_enabled freqd
        (sweep_ampl rsqrt flat) st.cfg.segments 0).2.2, ?_, ?_⟩
    · simp [raw_branch, get_sweep_data, get_freq_data, M_bind_apply, M_pure_apply,
        doQueryValues_ok hsw, doQueryValues_ok hfr, except_bind_ok, hlost, htk,
        set_segmentsM_ok hw hwv, List.append_assoc]
    · intro _
      exact reprogram_event_mem st.model _
  · refine ⟨[], ?_, by simp [htk]⟩
    simp [raw_branch, get_sweep_data, get_freq_data, M_bind_apply, M_pure_apply,
      doQueryValues_ok hsw, doQueryValues_ok hfr, except_bind_ok, hlost, htk]

theorem raw_branch_accept {rsqrt : ℚ → ℚ} {fit : FitOracle} {link : Link}
    {st : VNAState} {flat freqd : List ℚ} {opc : String}
    (hw : ∀ c, link.write c = .ok ())
    (hwv : ∀ c p, link.writeValues c p = .ok ())
    (hq : link.query "*OPC?" = .ok opc)
    (hsw : link.queryValues (sweep_cmd st.model) = .ok flat)
    (hfr : link.queryValues (freq_cmd st.model) = .ok freqd)
    (hok : (raw_segments fit st.cfg.track_freq st.cfg.track_enabled freqd
        (sweep_ampl rsqrt flat) st.cfg.segments 0).2.1 = false) (t : List Event) :
    ∃ tr, raw_branch rsqrt fit link st t =
        .ok ((some (raw_sample_data (raw_segments fit st.cfg.track_freq
            st.cfg.track_enabled freqd (sweep_ampl rsqrt flat) st.cfg.segments 0).1),
          { cfg := (tracked_cfg { st.cfg with
              segments := (raw_segments fit st.cfg.track_freq st.cfg.track_enabled freqd
                (sweep_ampl rsqrt flat) st.cfg.segments 0).2.2 }
              (raw_sample_data (raw_segments fit st.cfg.track_freq st.cfg.track_enabled
                freqd (sweep_ampl rsqrt flat) st.cfg.segments 0).1).f0
              (raw_sample_data (raw_segments fit st.cfg.track_freq st.cfg.track_enabled
                freqd (sweep_ampl rsqrt flat) st.cfg.segments 0).1).bw).1,
            model := st.model, last_sample := st.last_sample }),
          t ++ [.queryValues (sweep_cmd st.model), .queryValues (freq_cmd st.model)] ++ tr) ∧
      ((tracked_cfg { st.cfg with
          segments := (raw_segments fit st.cfg.track_freq st.cfg.track_enabled freqd
            (sweep_ampl rsqrt flat) st.cfg.segments 0).2.2 }
          (raw_sample_data (raw_segments fit st.cfg.track_freq st.cfg.track_enabled
            freqd (sweep_ampl rsqrt flat) st.cfg.segments 0).1).f0
          (raw_sample_data (raw_segments fit st.cfg.track_freq st.cfg.track_enabled
            freqd (sweep_ampl rsqrt flat) st.cfg.segments 0).1).bw).2 = true →
        Event.writeValues (reprogram_cmd st.model)
          (set_segments_data st.model
            (tracked_cfg { st.cfg with
              segments := (raw_segments fit st.cfg.track_freq st.cfg.track_enabled freqd
                (sweep_ampl rsqrt flat) st.cfg.segments 0).2.2 }
              (raw_sample_data (raw_segments fit st.cfg.track_freq st.cfg.track_enabled
                freqd (sweep_ampl rsqrt flat) st.cfg.segments 0).1).f0
              (raw_sample_data (raw_segments fit st.cfg.track_freq st.cfg.track_enabled
                freqd (sweep_ampl rsqrt flat) st.cfg.segments 0).1).bw).1.segments) ∈ tr) := by
  obtain ⟨tr, hft, hmem⟩ := finish_tracking_ok hw hwv hq st.model
    { st.cfg with segments := (raw_segments fit st.cfg.track_freq st.cfg.track_enabled
        freqd (sweep_ampl rsqrt flat) st.cfg.segments 0).2.2 }
    (raw_sample_data (raw_segments fit st.cfg.track_freq st.cfg.track_enabled freqd
      (sweep_ampl rsqrt flat) st.cfg.segments 0).1).f0
    (raw_sample_data (raw_segments fit st.cfg.track_freq st.cfg.track_enabled freqd
      (sweep_ampl rsqrt flat) st.cfg.segments 0).1).bw
    (t ++ [.queryValues (sweep_cmd st.model), .queryValues (freq_cmd st.model)])
  refine ⟨tr, ?_, hmem⟩
  simp only [raw_branch, get_sweep_data, get_freq_data, M_bind_apply, M_pure_apply,
    doQueryValues_ok hsw, doQueryValues_ok hfr, except_bind_ok, hok,
    Bool.false_eq_true, if_false, List.append_assoc, List.cons_append,
    List.nil_append, hft]

/-- Cumulative point offset of segment `i` in a segment list: the summed
point counts of the ENABLED segments strictly before it (a disabled
segment consumes no points and no offset). -/
def enabled_offset (segs : List Segment) (i : ℕ) : ℕ :=
  (((segs.take i).filter fun s => s.enabled).map fun s => s.points).sum

theorem enabled_offset_zero (segs : List Segment) : enabled_offset segs 0 = 0 := rfl

theorem enabled_offset_cons (seg : Segment) (segs : List Segment) (i : ℕ) :
    enabled_offset (seg :: segs) (i + 1) =
      (if seg.enabled then seg.points else 0) + enabled_offset segs i := by
  by_cases h : seg.enabled <;> simp [enabled_offset, h]

/-- What the raw-sweep pass does to the segment at a given cumulative
offset: untouched when disabled or when its windowed fit succeeds, nudged
when the fit fails. -/
def raw_update (fit : FitOracle) (tf te : Bool) (freq ampl : List ℚ) (off : ℕ)
    (seg : Segment) : Segment :=
  if seg.enabled then
    match fit (windowSlice off seg.points freq) (windowSlice off seg.points ampl) with
    | some _ => seg
    | none => nudge_segment tf te (windowSlice off seg.points freq)
        (windowSlice off seg.points ampl) seg
  else seg

theorem raw_segments_length (fit : FitOracle) (tf te : Bool) (freq ampl : List ℚ) :
    ∀ (segs : List Segment) (start : ℕ),
      ((raw_segments fit tf te freq ampl segs start).2.2).length = segs.length
  | [], _ => rfl
  | seg :: rest, start => by
    by_cases h : seg.enabled
    · cases hf : fit (windowSlice start seg.points freq)
        (windowSlice start seg.points ampl) <;>
        simp [raw_segments, h, hf, raw_segments_length fit tf te freq ampl rest _]
    · simp [raw_segments, h, raw_segments_length fit tf te freq ampl rest _]

theorem raw_segments_get (fit : FitOracle) (tf te : Bool) (freq ampl : List ℚ) :
    ∀ (segs : List Segment) (start i : ℕ) (seg : Segment), segs[i]? = some seg →
      ((raw_segments fit tf te freq ampl segs start).2.2)[i]? =
        some (raw_update fit tf te freq ampl (start + enabled_offset segs i) seg)
  | [], _, i, seg => by simp
  | seg0 :: rest, start, 0, seg => by
    intro hget
    simp only [List.getElem?_cons_zero, Option.some.injEq] at hget
    subst hget
    by_cases h : seg0.enabled
    · cases hf : fit (windowSlice start seg0.points freq)
        (windowSlice start seg0.points ampl) <;>
        simp [raw_segments, raw_update, h, hf, enabled_offset_zero]
    · simp [raw_segments, raw_update, h, enabled_offset_zero]
  | seg0 :: rest, start, i + 1, seg => by
    intro hget
    simp only [List.getElem?_cons_succ] at hget
    have hrec := raw_segments_get fit tf te freq ampl rest
    by_cases h : seg0.enabled
    · cases hf : fit (windowSlice start seg0.points freq)
        (windowSlice start seg0.points ampl) <;>
        simpa [raw_segments, h, hf, enabled_offset_cons, Nat.add_assoc] using
          hrec (start + seg0.points) i seg hget
    · simpa [raw_segments, h, enabled_offset_cons] using hrec start i seg hget

theorem raw_segments_lost_iff (fit : FitOracle) (tf te : Bool) (freq ampl : List ℚ) :
    ∀ (segs : List Segment) (start : ℕ),
      (raw_segments fit tf te freq ampl segs start).2.1 = true ↔
        ∃ i seg, segs[i]? = some seg ∧ seg.enabled = true ∧
          fit (windowSlice (start + enabled_offset segs i) seg.points freq)
              (windowSlice (start + enabled_offset segs i) seg.points ampl) = none
  | [], start => by simp [raw_segments]
  | seg0 :: rest, start => by
    have hrec := raw_segments_lost_iff fit tf te freq ampl rest
    by_cases h : seg0.enabled
    · cases hf : fit (windowSlice start seg0.points freq)
        (windowSlice start seg0.points ampl)
      · simp only [raw_segments, h, if_true, hf]
        constructor
        · intro _
          exact ⟨0, seg0, by simp, h, by simpa [enabled_offset_zero] using hf⟩
        · intro _
          trivial
      · simp only [raw_segments, h, if_true, hf, hrec (start + seg0.points)]
        constructor
        · rintro ⟨i, seg, hget, hena, hfit⟩
          exact ⟨i + 1, seg, by simpa using hget, hena,
            by simpa [enabled_offset_cons, h, Nat.add_assoc] using hfit⟩
        · rintro ⟨i, seg, hget, hena, hfit⟩
          cases i with
          | zero =>
            exfalso
            simp only [List.getElem?_cons_zero, Option.some.injEq] at hget
            subst hget
            simp [enabled_offset_zero, hf] at hfit
          | succ i =>
            simp only [List.getElem?_cons_succ] at hget
            exact ⟨i, seg, hget, hena,
              by simpa [enabled_offset_cons, h, Nat.add_assoc] using hfit⟩
    · simp only [raw_segments, h, if_false, Bool.false_eq_true, hrec start]
      constructor
      · rintro ⟨i, seg, hget, hena, hfit⟩
        exact ⟨i + 1, seg, by simpa using hget, hena,
          by simpa [enabled_offset_cons, h] using hfit⟩
      · rintro ⟨i, seg, hget, hena, hfit⟩
        cases i with
        | zero =>
          exfalso
          simp only [List.getElem?_cons_zero, Option.some.injEq] at hget
          subst hget
          simp [h] at hena
        | succ i =>
          simp only [List.getElem?_cons_succ] at hget
          exact ⟨i, seg, hget, hena, by simpa [enabled_offset_cons, h] using hfit⟩

theorem raw_segments_results_length (fit : FitOracle) (tf te : Bool)
    (freq ampl : List ℚ) :
    ∀ (segs : List Segment) (start : ℕ),
      (raw_segments fit tf te freq ampl segs start).2.1 = false →
      ((raw_segments fit tf te freq ampl segs start).1).length = segs.length
  | [], _ => fun _ => rfl
  | seg :: rest, start => by
    intro hnl
    by_cases h : seg.enabled
    · cases hf : fit (windowSlice start seg.points freq)
        (windowSlice start seg.points ampl)
      · simp [raw_segments, h, hf] at hnl
      · simp only [raw_segments, h, if_true, hf] at hnl ⊢
        simp [raw_segments_results_length fit tf te freq ampl rest _ hnl]
    · simp only [raw_segments, h, if_false, Bool.false_eq_true] at hnl ⊢
      simp [raw_segments_results_length fit tf te freq ampl rest _ hnl]

theorem raw_segments_results_get (fit : FitOracle) (tf te : Bool)
    (freq ampl : List ℚ) :
    ∀ (segs : List Segment) (start i : ℕ) (seg : Segment),
      (raw_segments fit tf te freq ampl segs start).2.1 = false →
      segs[i]? = some seg →
      ((raw_segments fit tf te freq ampl segs start).1)[i]? =
        some (if seg.enabled then
          (fit (windowSlice (start + enabled_offset segs i) seg.points freq)
               (windowSlice (start + enabled_offset segs i) seg.points ampl)).map
            (fun r => (r, windowSlice (start + enabled_offset segs i) seg.points freq,
                       windowSlice (start + enabled_offset segs i) seg.points ampl))
        else none)
  | [], _, i, seg => by simp
  | seg0 :: rest, start, 0, seg => by
    intro hnl hget
    simp only [List.getElem?_cons_zero, Option.some.injEq] at hget
    subst hget
    by_cases h : seg0.enabled
    · cases hf : fit (windowSlice start seg0.points freq)
        (windowSlice start seg0.points ampl)
      · simp [raw_segments, h, hf] at hnl
      · simp [raw_segments, h, hf, enabled_offset_zero]
    · simp [raw_segments, h, enabled_offset_zero]
  | seg0 :: rest, start, i + 1, seg => by
    intro hnl hget
    simp only [List.getElem?_cons_succ] at hget
    have hrec := raw_segments_results_get fit tf te freq ampl rest
    by_cases h : seg0.enabled
    · cases hf : fit (windowSlice start seg0.points freq)
        (windowSlice start seg0.points ampl)
      · simp [raw_segments, h, hf] at hnl
      · simp only [raw_segments, h, if_true, hf] at hnl ⊢
        simpa [enabled_offset_cons, h, Nat.add_assoc] using
          hrec (start + seg0.points) i seg hnl hget
    · simp only [raw_segments, h, if_false, Bool.false_eq_true] at hnl ⊢
      simpa [enabled_offset_cons, h] using hrec start i seg hnl hget

/-- Drift criterion in the claim's words:
`ferr = |center − fittedF0| + fittedBw/2 > span × 0.8 × 0.5`. -/
def drift_trips (center span fittedF0 fittedBw : ℚ) : Prop :=
  |center - fittedF0| + fittedBw / 2 > span * (4/5) * (1/2)

instance (c s f b : ℚ) : Decidable (drift_trips c s f b) := by
  unfold drift_trips
  infer_instance

/-- Span-fit criterion in the claim's words:
`(fittedBw × bwFactor)/span > 1.3` or `span/(fittedBw × bwFactor) > 1.3`. -/
def spanfit_trips (span fittedBw bwFactor : ℚ) : Prop :=
  (fittedBw * bwFactor) / span > 13/10 ∨ span / (fittedBw * bwFactor) > 13/10

instance (s b k : ℚ) : Decidable (spanfit_trips s b k) := by
  unfold spanfit_trips
  infer_instance

theorem track_window_fst (c s f b k : ℚ) :
    (track_window c s f b (4/5) (3/10) k).1 = decide (drift_trips c s f b) := rfl

theorem track_window_snd (c s f b k : ℚ) :
    (track_window c s f b (4/5) (3/10) k).2 = decide (spanfit_trips s b k) := by
  simp only [track_window, spanfit_trips, Bool.decide_or]
  norm_num

theorem track_window_fst_iff (c s f b k : ℚ) :
    (track_window c s f b (4/5) (3/10) k).1 = true ↔ drift_trips c s f b := by
  simp [track_window_fst]

theorem track_window_snd_iff (c s f b k : ℚ) :
    (track_window c s f b (4/5) (3/10) k).2 = true ↔ spanfit_trips s b k := by
  simp [track_window_snd]

/-- Condition under which the tracking pass rewrites a segment, in the
amended claim's words: the segment is enabled and has a result, and either
the drift check trips with `trackFrequency` set or the span-fit check
trips with `trackSpan` set. -/
def amended_tripped (tf ts : Bool) (k : ℚ) (seg : Segment) (r : Option (ℚ × ℚ)) : Bool :=
  match r with
  | some (f0, bw) =>
    seg.enabled && ((decide (drift_trips seg.f0 seg.span f0 bw) && tf) ||
      (decide (spanfit_trips seg.span bw k) && ts))
  | none => false

/-- Per-segment tracking update in the amended claim's words: when
`amended_tripped` holds, `f0` becomes the fitted center if `trackFrequency`
is set and `span` becomes `fittedBw × bwFactor` if `trackSpan` is set;
otherwise the segment is unchanged. -/
def amended_update (tf ts : Bool) (k : ℚ) (seg : Segment) (r : Option (ℚ × ℚ)) : Segment :=
  match r with
  | some (f0, bw) =>
    if seg.enabled && ((decide (drift_trips seg.f0 seg.span f0 bw) && tf) ||
        (decide (spanfit_trips seg.span bw k) && ts)) then
      { seg with f0 := if tf then f0 else seg.f0,
                 span := if ts then bw * k else seg.span }
    else seg
  | none => seg

theorem track_pass_spec (tf ts : Bool) (k : ℚ) :
    ∀ (segs : List Segment) (rs : List (Option (ℚ × ℚ))),
      (track_pass tf ts k segs rs).1 =
          List.zipWith (amended_update tf ts k) segs rs ++ segs.drop rs.length ∧
      (track_pass tf ts k segs rs).2 =
          (List.zipWith (amended_tripped tf ts k) segs rs).any id
  | [], rs => by cases rs <;> simp [track_pass]
  | seg :: segs, [] => by simp [track_pass]
  | seg :: segs, r :: rs => by
    obtain ⟨ih1, ih2⟩ := track_pass_spec tf ts k segs rs
    by_cases h : seg.enabled
    · cases r with
      | none => simp [track_pass, h, amended_update, amended_tripped, ih1, ih2]
      | some p =>
        obtain ⟨f0, bw⟩ := p
        by_cases hc : (decide (drift_trips seg.f0 seg.span f0 bw) && tf) ||
            (decide (spanfit_trips seg.span bw k) && ts)
        · constructor
          · simp [track_pass, h, amended_update, track_window_fst, track_window_snd,
              hc, ih1]
          · simp [track_pass, h, amended_tripped, track_window_fst, track_window_snd,
              hc]
        · constructor
          · simp [track_pass, h, amended_update, track_window_fst, track_window_snd,
              hc, ih1]
          · simp [track_pass, h, amended_tripped, track_window_fst, track_window_snd,
              hc, ih2]
    · cases r with
      | none => simp [track_pass, h, amended_update, amended_tripped, ih1, ih2]
      | some p =>
        obtain ⟨f0, bw⟩ := p
        simp [track_pass, h, amended_update, amended_tripped, ih1, ih2]

/-- Concrete all-ok instrument link used by the witnesses: every write
succeeds, `*IDN?` reports an E5071C, the sweep-data and frequency-axis
queries return the given lists, markers return the given quadruples. -/
def allOkLink (sweepv freqv : List ℚ) (markers : ℕ → Fit4) : Link :=
  { resetR := .ok (),
    write := fun _ => .ok (),
    query := fun _ => .ok "Agilent,E5071C,SN,FW",
    queryValues := fun c => if c = ":SENS:FREQ:DATA?" then .ok freqv else .ok sweepv,
    writeValues := fun _ _ => .ok (),
    markerData := fun i => .ok (markers i) }

/-- Concrete enabled segment used by the witnesses. -/
def wseg : Segment :=
  { name := "s1", f0 := 1000, span := 1000, f0_default := 1000, span_default := 1000,
    points := 2, ifbw := 5, power := 0, enabled := true }

/-- Concrete raw-sweep configuration with both tracking gates set. -/
def wcfg : VNAConfig :=
  { segments := [wseg], track_freq := true, track_span := true, use_markers := false,
    bw_factor := 8, bw_factor_override := none, track_enabled := true }

/-- C1.  The Auto-Tracking Controller, as amended.  (i) The drift check
trips iff `|center − fittedF0| + fittedBw/2 > span × 0.8 × 0.5` and the
span-fit check trips iff `(fittedBw×bwFactor)/span > 1.3` or
`span/(fittedBw×bwFactor) > 1.3`.  (ii) The tracking pass rewrites exactly
the enabled segments whose trip condition `amended_tripped` holds — the
disjunction (drift ∧ trackFrequency) ∨ (span-fit ∧ trackSpan) — setting
`f0` to the fitted center whenever `trackFrequency` is set (NOT only when
the drift check trips) and `span` to `fittedBw × bwFactor` whenever
`trackSpan` is set; its flag is the disjunction of the per-segment trip
conditions.  (iii) When any segment tripped, the controller reprograms the
full sweep (a segment-list write with the updated segments appears in the
trace). -/
theorem C1_auto_tracking :
    (∀ c s f b k : ℚ,
      ((track_window c s f b (4/5) (3/10) k).1 = true ↔ drift_trips c s f b) ∧
      ((track_window c s f b (4/5) (3/10) k).2 = true ↔ spanfit_trips s b k)) ∧
    (∀ (tf ts : Bool) (k : ℚ) (segs : List Segment) (rs : List (Option (ℚ × ℚ))),
      (track_pass tf ts k segs rs).1 =
          List.zipWith (amended_update tf ts k) segs rs ++ segs.drop rs.length ∧
      (track_pass tf ts k segs rs).2 =
          (List.zipWith (amended_tripped tf ts k) segs rs).any id) ∧
    (∀ (link : Link) (model : String) (cfg : VNAConfig)
        (dF dB : List (Option ℚ)) (t : List Event) (opc : String),
      (∀ c, link.write c = .ok ()) →
      (∀ c p, link.writeValues c p = .ok ()) →
      link.query "*OPC?" = .ok opc →
      ∃ tr, finish_tracking link model cfg dF dB t =
          .ok ((tracked_cfg cfg dF dB).1, t ++ tr) ∧
        ((tracked_cfg cfg dF dB).2 = true →
          Event.writeValues (reprogram_cmd model)
            (set_segments_data model (tracked_cfg cfg dF dB).1.segments) ∈ tr)) := by
  refine ⟨fun c s f b k => ⟨track_window_fst_iff c s f b k, track_window_snd_iff c s f b k⟩,
    fun tf ts k segs rs => track_pass_spec tf ts k segs rs,
    fun link model cfg dF dB t opc hw hwv hq =>
      finish_tracking_ok hw hwv hq model cfg dF dB t⟩

/-- C1 witness: on a concrete configuration (segment at `f0 = 1000`,
`span = 1000`, both tracking gates set, factor 8) with fitted values
`(f0, bw) = (1100, 1)`, the trip condition holds and the controller run
with an all-ok link yields the tracked configuration and issues the
reprogramming write. -/
theorem C1_auto_tracking_witness :
    (tracked_cfg wcfg [some 1100] [some 1]).2 = true ∧
    ∃ tr, finish_tracking (allOkLink [] [] fun _ => (0, 0, 0, 0)) "E5071C" wcfg
        [some 1100] [some 1] [] =
        .ok ((tracked_cfg wcfg [some 1100] [some 1]).1, [] ++ tr) ∧
      Event.writeValues (reprogram_cmd "E5071C")
        (set_segments_data "E5071C"
          (tracked_cfg wcfg [some 1100] [some 1]).1.segments) ∈ tr := by
  have htr : (tracked_cfg wcfg [some 1100] [some 1]).2 = true := by
    simp [tracked_cfg, tracking_armed, wcfg, wseg, track_pass, track_window,
      zip_results, VNAConfig.get_bw_factor]
    norm_num
  obtain ⟨tr, heq, hmem⟩ := C1_auto_tracking.2.2
    (allOkLink [] [] fun _ => (0, 0, 0, 0)) "E5071C" wcfg [some 1100] [some 1] []
    "Agilent,E5071C,SN,FW" (fun _ => rfl) (fun _ _ => rfl) rfl
  exact ⟨htr, tr, heq, hmem htr⟩

/-- C1 counterexample: the claim's "only when" direction is false.  With
both tracking gates set, a fitted center of 1100 and fitted bandwidth 1 in
a window centered at 1000 with span 1000, the drift check does NOT trip
(`ferr = 100.5 ≤ 400`), yet because the span-fit check trips the tracking
pass still sets the segment's `f0` to the fitted center 1100 ≠ 1000. -/
theorem C1_only_when_cex :
    ¬ drift_trips 1000 1000 1100 1 ∧
    (track_window 1000 1000 1100 1 (4/5) (3/10) 8).1 = false ∧
    ((track_pass true true 8 [wseg] [some (1100, 1)]).1.map fun s => s.f0) = [1100] ∧
    wseg.f0 = 1000 := by
  refine ⟨?_, ?_, ?_, rfl⟩
  · simp [drift_trips]
    norm_num
  · simp [track_window]
    norm_num
  · simp [track_pass, track_window, wseg]
    norm_num

/-- C8.  Bandwidth-factor override precedence: after
`set_bw_factor_override (some x)` the effective factor is `x` no matter
what the nominal factor is (even if the nominal is changed afterwards),
and after clearing (`set_bw_factor_override none`) the effective factor is
the nominal again. -/
theorem C8_bw_factor_override :
    (∀ (cfg : VNAConfig) (x : ℚ),
      (set_bw_factor_override cfg (some x)).get_bw_factor = x) ∧
    (∀ (cfg : VNAConfig) (x nominal : ℚ),
      { set_bw_factor_override cfg (some x) with bw_factor := nominal }.get_bw_factor
        = x) ∧
    (∀ (cfg : VNAConfig),
      (set_bw_factor_override cfg none).get_bw_factor = cfg.bw_factor) := by
  refine ⟨fun cfg x => rfl, fun cfg x nominal => rfl, fun cfg => rfl⟩

theorem init_segments_sorted_le (config : ConfigInput) :
    ((VNAConfig.init config).segments).Pairwise fun a b => a.f0 ≤ b.f0 := by
  have h := @List.sorted_mergeSort Segment
    (fun a b : Segment => decide (a.f0 ≤ b.f0))
    (fun a b c hab hbc => by
      simp only [decide_eq_true_eq] at *
      exact le_trans hab hbc)
    (fun a b => by
      simp only [Bool.or_eq_true, decide_eq_true_eq]
      exact le_total a.f0 b.f0)
    (config.segments.map fun p =>
      Segment.init p.1 p.2.f0 p.2.span p.2.points p.2.ifbw p.2.power)
  refine List.Pairwise.imp ?_ h
  intro a b hab
  simpa using hab

theorem init_segments_perm (config : ConfigInput) :
    ((VNAConfig.init config).segments).Perm
      (config.segments.map fun p =>
        Segment.init p.1 p.2.f0 p.2.span p.2.points p.2.ifbw p.2.power) :=
  List.mergeSort_perm _ _

/-- C7.  Setup segment ordering, as amended: for EVERY configuration the
segment sequence built by `VNAConfig.__init__` is sorted by `f0` in
NON-DECREASING order, and it is strictly ascending whenever the input
segment map contains no duplicate `f0` value (with duplicate `f0` values a
strictly ascending order is impossible; see the counterexample). -/
theorem C7_setup_sort :
    (∀ config : ConfigInput,
      ((VNAConfig.init config).segments).Pairwise fun a b => a.f0 ≤ b.f0) ∧
    (∀ config : ConfigInput,
      (config.segments.map fun p => p.2.f0).Nodup →
      ((VNAConfig.init config).segments).Pairwise fun a b => a.f0 < b.f0) := by
  refine ⟨init_segments_sorted_le, fun config hnd => ?_⟩
  have hperm : (((VNAConfig.init config).segments).map fun s => s.f0).Perm
      (config.segments.map fun p => p.2.f0) := by
    have := (init_segments_perm config).map fun s => s.f0
    simpa [List.map_map, Function.comp, Segment.init] using this
  have hnd' : (((VNAConfig.init config).segments).map fun s => s.f0).Nodup :=
    hperm.symm.nodup hnd
  rw [List.Nodup, List.pairwise_map] at hnd'
  refine List.Pairwise.imp ?_ ((init_segments_sorted_le config).and hnd')
  intro a b hab
  exact lt_of_le_of_ne hab.1 hab.2

/-- Concrete unsorted, duplicate-free configuration for the C7 witness:
segment "b" at `f0 = 5` listed before segment "a" at `f0 = 3`. -/
def c7cfg : ConfigInput :=
  { segments := [("b", { f0 := 5, span := 1, points := 2, ifbw := 1, power := 0 }),
                 ("a", { f0 := 3, span := 1, points := 2, ifbw := 1, power := 0 })],
    track_frequency := false, track_span := false, use_markers := false,
    bandwidth_factor := 8 }

/-- C7 witness: the unsorted two-segment map with distinct `f0` values 5
and 3 satisfies the no-duplicate hypothesis, and `Setup` yields a strictly
ascending sequence. -/
theorem C7_setup_sort_witness :
    (c7cfg.segments.map fun p => p.2.f0).Nodup ∧
    ((VNAConfig.init c7cfg).segments).Pairwise fun a b => a.f0 < b.f0 := by
  have hnd : (c7cfg.segments.map fun p => p.2.f0).Nodup := by
    simp [c7cfg]
  exact ⟨hnd, C7_setup_sort.2 c7cfg hnd⟩

/-- Concrete configuration with two segments sharing `f0 = 5`. -/
def c7dup : ConfigInput :=
  { segments := [("a", { f0 := 5, span := 1, points := 2, ifbw := 1, power := 0 }),
                 ("b", { f0 := 5, span := 2, points := 3, ifbw := 1, power := 0 })],
    track_frequency := false, track_span := false, use_markers := false,
    bandwidth_factor := 8 }

/-- C7 counterexample: the claim as stated — strictly ascending `f0` order
for EVERY configuration — fails on a configuration whose two segments
share `f0 = 5`: the constructed sequence cannot be strictly ascending. -/
theorem C7_strict_sort_cex :
    ¬ (((VNAConfig.init c7dup).segments).Pairwise fun a b => a.f0 < b.f0) := by
  intro hp
  have hmem : ∀ s ∈ (VNAConfig.init c7dup).segments, s.f0 = 5 := by
    intro s hs
    have hs' : s ∈ (c7dup.segments.map fun p =>
        Segment.init p.1 p.2.f0 p.2.span p.2.points p.2.ifbw p.2.power) :=
      ((init_segments_perm c7dup).mem_iff).mp hs
    simp only [c7dup, List.map_cons, List.map_nil, List.mem_cons,
      List.not_mem_nil, or_false] at hs'
    rcases hs' with h | h <;> subst h <;> rfl
  have hlen : ((VNAConfig.init c7dup).segments).length = 2 :=
    (init_segments_perm c7dup).length_eq.trans (by simp [c7dup])
  rcases hsegs : (VNAConfig.init c7dup).segments with _ | ⟨x, _ | ⟨y, rest⟩⟩
  · rw [hsegs] at hlen
    simp at hlen
  · rw [hsegs] at hlen
    simp at hlen
  · have hrest : rest = [] := by
      rw [hsegs] at hlen
      simpa using hlen
    subst hrest
    rw [hsegs] at hp hmem
    have hxy : x.f0 < y.f0 := by
      have := List.pairwise_cons.mp hp
      exact this.1 y (by simp)
    have hx : x.f0 = 5 := hmem x (by simp)
    have hy : y.f0 = 5 := hmem y (by simp)
    rw [hx, hy] at hxy
    exact lt_irrefl _ hxy

theorem foldl_max_base_le : ∀ (xs : List ℚ) (a : ℚ), a ≤ xs.foldl max a
  | [], a => le_refl a
  | y :: ys, a => le_trans (le_max_left a y) (foldl_max_base_le ys (max a y))

theorem foldl_max_mem_le : ∀ (xs : List ℚ) (a x : ℚ), x ∈ xs → x ≤ xs.foldl max a
  | y :: ys, a, x, hx => by
    rcases List.mem_cons.mp hx with h | h
    · subst h
      exact le_trans (le_max_right a x) (foldl_max_base_le ys (max a x))
    · exact foldl_max_mem_le ys (max a y) x h

theorem foldl_min_le_base : ∀ (xs : List ℚ) (a : ℚ), xs.foldl min a ≤ a
  | [], a => le_refl a
  | y :: ys, a => le_trans (foldl_min_le_base ys (min a y)) (min_le_left a y)

theorem foldl_min_le_mem : ∀ (xs : List ℚ) (a x : ℚ), x ∈ xs → xs.foldl min a ≤ x
  | y :: ys, a, x, hx => by
    rcases List.mem_cons.mp hx with h | h
    · subst h
      exact le_trans (foldl_min_le_base ys (min a x)) (min_le_right a x)
    · exact foldl_min_le_mem ys (min a y) x h

theorem le_lmax (l : List ℚ) (x : ℚ) (hx : x ∈ l) : x ≤ lmax l := by
  cases l with
  | nil => cases hx
  | cons y ys =>
    rcases List.mem_cons.mp hx with h | h
    · subst h
      exact foldl_max_base_le ys x
    · exact foldl_max_mem_le ys y x h

theorem lmin_le (l : List ℚ) (x : ℚ) (hx : x ∈ l) : lmin l ≤ x := by
  cases l with
  | nil => cases hx
  | cons y ys =>
    rcases List.mem_cons.mp hx with h | h
    · subst h
      exact foldl_min_le_base ys x
    · exact foldl_min_le_mem ys y x h

theorem lmin_le_lmax (l : List ℚ) (h : l ≠ []) : lmin l ≤ lmax l := by
  cases l with
  | nil => exact absurd rfl h
  | cons y ys => exact le_trans (lmin_le _ y (by simp)) (le_lmax _ y (by simp))

theorem div_mem_unit {a b : ℚ} (h0 : 0 ≤ a) (h1 : a ≤ b) : 0 ≤ a / b ∧ a / b ≤ 1 := by
  rcases eq_or_lt_of_le (le_trans h0 h1) with hb | hb
  · have ha : a = 0 := le_antisymm (hb ▸ h1) h0
    simp [ha]
  · exact ⟨div_nonneg h0 (le_of_lt hb), (div_le_one hb).mpr h1⟩

/-- C10.  For every solver outcome — including one that converges to a
NEGATIVE bandwidth parameter — the bandwidth returned by `lorentz_fit` is
non-negative, because the source takes `np.fabs(bw)` before
de-normalizing and the frequency span `max − min` is non-negative on any
non-empty input. -/
theorem C10_fit_bw_nonneg (log10 : ℚ → ℚ) (solver : Solver) (freq ampl : List ℚ)
    (h : freq ≠ []) : 0 ≤ (lorentz_fit log10 solver freq ampl).bw := by
  have hspan : 0 ≤ lmax freq - lmin freq := sub_nonneg.mpr (lmin_le_lmax freq h)
  simp only [lorentz_fit]
  exact mul_nonneg (abs_nonneg _) hspan

/-- Solver stub that converges to the negative bandwidth parameter −3. -/
def negBwSolver : Solver := fun _ _ _ _ => (0, -3, 1)

/-- C10 witness: on the concrete frequency list `[0, 1]` (non-empty) with
a solver that returns bandwidth parameter −3 < 0, the fitted bandwidth is
still non-negative. -/
theorem C10_fit_bw_nonneg_witness :
    ([0, 1] : List ℚ) ≠ [] ∧
    (negBwSolver [] [] none (1/2, 1/2, 1)).2.1 < 0 ∧
    0 ≤ (lorentz_fit (fun q => q) negBwSolver [0, 1] [1]).bw := by
  refine ⟨by simp, by norm_num [negBwSolver], ?_⟩
  exact C10_fit_bw_nonneg (fun q => q) negBwSolver [0, 1] [1] (by simp)

/-- C2.  The `lorentz_fit` pipeline, as amended: on any non-empty input
with non-negative amplitudes, (i) every normalized frequency
`(f − min)/(max − min)` lies in `[0, 1]` and every normalized amplitude
`a / max` lies in `[0, 1]`; (ii) the result is exactly the de-normalized
output of the solver called on the normalized data WITH NO WEIGHTS
(`sigma = none` — the squared-normalized-amplitude weights the source
computes are never passed on) from the start `(0.5, 0.5, 1.0)`:
`f0 = f0'·fspan + min`, `bw = |bw'|·fspan`, quality factor `f0/bw`, and
insertion loss `20·log10(pmax'·peakAmplitude)`. -/
theorem C2_lorentz_fit_pipeline (log10 : ℚ → ℚ) (solver : Solver) (freq ampl : List ℚ)
    (hf : freq ≠ []) (ha : ampl ≠ []) (hpos : ∀ a ∈ ampl, 0 ≤ a) :
    (∀ x ∈ freq.map fun f => (f - lmin freq) / (lmax freq - lmin freq),
        0 ≤ x ∧ x ≤ 1) ∧
    (∀ y ∈ ampl.map fun a => a / lmax ampl, 0 ≤ y ∧ y ≤ 1) ∧
    lorentz_fit log10 solver freq ampl =
      { bw := |(solver (freq.map fun f => (f - lmin freq) / (lmax freq - lmin freq))
            (ampl.map fun a => a / lmax ampl) none (1/2, 1/2, 1)).2.1|
            * (lmax freq - lmin freq),
        f0 := (solver (freq.map fun f => (f - lmin freq) / (lmax freq - lmin freq))
            (ampl.map fun a => a / lmax ampl) none (1/2, 1/2, 1)).1
            * (lmax freq - lmin freq) + lmin freq,
        q := ((solver (freq.map fun f => (f - lmin freq) / (lmax freq - lmin freq))
            (ampl.map fun a => a / lmax ampl) none (1/2, 1/2, 1)).1
            * (lmax freq - lmin freq) + lmin freq)
            / (|(solver (freq.map fun f => (f - lmin freq) / (lmax freq - lmin freq))
                (ampl.map fun a => a / lmax ampl) none (1/2, 1/2, 1)).2.1|
               * (lmax freq - lmin freq)),
        il := 20 * log10 ((solver
            (freq.map fun f => (f - lmin freq) / (lmax freq - lmin freq))
            (ampl.map fun a => a / lmax ampl) none (1/2, 1/2, 1)).2.2 * lmax ampl) } := by
  refine ⟨?_, ?_, rfl⟩
  · intro x hx
    rcases List.mem_map.mp hx with ⟨f, hfm, hfe⟩
    subst hfe
    exact div_mem_unit (sub_nonneg.mpr (lmin_le freq f hfm))
      (sub_le_sub_right (le_lmax freq f hfm) _)
  · intro y hy
    rcases List.mem_map.mp hy with ⟨a, ham, hae⟩
    subst hae
    exact div_mem_unit (hpos a ham) (le_lmax ampl a ham)

/-- C2 witness: the pipeline theorem applied at the concrete input
`freq = [0, 4]`, `ampl = [1, 2]` (non-empty, non-negative) with an
identity-like solver stub. -/
theorem C2_lorentz_fit_pipeline_witness :
    (∀ x ∈ ([0, 4] : List ℚ).map fun f => (f - lmin [0, 4]) / (lmax [0, 4] - lmin [0, 4]),
        0 ≤ x ∧ x ≤ 1) ∧
    (∀ y ∈ ([1, 2] : List ℚ).map fun a => a / lmax [1, 2], 0 ≤ y ∧ y ≤ 1) := by
  have h := C2_lorentz_fit_pipeline (fun q => q) negBwSolver [0, 4] [1, 2]
    (by simp) (by simp) (by norm_num)
  exact ⟨h.1, h.2.1⟩

/-- Solver stub that inspects its sigma argument: it reports whether a
weighting sequence was supplied, so source and spec renderings of the fit
can be told apart. -/
def sigmaProbe : Solver := fun _ _ sigma _ =>
  match sigma with
  | none => (0, 1, 1)
  | some _ => (1, 1, 1)

/-- C2 counterexample: the claim's "weights the samples by squared
normalized amplitude" is false of the source.  `lorentz_fit` (translated
from the source, which never passes its computed weights to `curve_fit`)
and `lorentz_fit_spec_weighted` (the spec's words, weights handed to the
solver) disagree at the concrete input `freq = [0, 1]`, `ampl = [1, 1]`
under a solver that distinguishes the two calls. -/
theorem C2_weights_cex :
    lorentz_fit (fun q => q) sigmaProbe [0, 1] [1, 1] ≠
      lorentz_fit_spec_weighted (fun q => q) sigmaProbe [0, 1] [1, 1] := by
  intro h
  have hf0 : (lorentz_fit (fun q => q) sigmaProbe [0, 1] [1, 1]).f0 =
      (lorentz_fit_spec_weighted (fun q => q) sigmaProbe [0, 1] [1, 1]).f0 := by
    rw [h]
  simp only [lorentz_fit, lorentz_fit_spec_weighted, sigmaProbe] at hf0
  norm_num [lmin, lmax] at hf0

/-- C3.  Lost-track handling in raw-sweep mode.  (i) A failed fit on an
enabled segment replaces it with its nudge: when
`track_freq and track_enabled`, strictly positive regression slope of the
windowed amplitude against the windowed frequency moves `f0` forward by
one full span and any other slope moves it backward by one full span
(segments are addressed at their cumulative enabled-point offset).
(ii) Whenever at least one enabled segment's fit fails, the cycle returns
no Sample, the session keeps the nudged segments, and — when
`track_freq and track_enabled` — the sweep is immediately reprogrammed
with the nudged segment list (the segment-list write appears in the
trace). -/
theorem C3_lost_track_nudge :
    (∀ (fit : FitOracle) (tf te : Bool) (freq ampl : List ℚ)
        (segs : List Segment) (start i : ℕ) (seg : Segment),
      segs[i]? = some seg → seg.enabled = true →
      fit (windowSlice (start + enabled_offset segs i) seg.points freq)
          (windowSlice (start + enabled_offset segs i) seg.points ampl) = none →
      ((raw_segments fit tf te freq ampl segs start).2.2)[i]? =
        some (nudge_segment tf te
          (windowSlice (start + enabled_offset segs i) seg.points freq)
          (windowSlice (start + enabled_offset segs i) seg.points ampl) seg)) ∧
    (∀ (tf te : Bool) (f a : List ℚ) (seg : Segment), tf && te = true →
      (nudge_segment tf te f a seg).f0 =
        (if linregress_slope f a > 0 then seg.f0 + seg.span
         else seg.f0 - seg.span) ∧
      (nudge_segment tf te f a seg).span = seg.span) ∧
    (∀ (rsqrt : ℚ → ℚ) (fit : FitOracle) (link : Link) (st : VNAState)
        (flat freqd : List ℚ) (opc : String) (t : List Event),
      st.cfg.use_markers = false →
      (∀ c, link.write c = .ok ()) →
      (∀ c p, link.writeValues c p = .ok ()) →
      link.query "*OPC?" = .ok opc →
      link.queryValues (sweep_cmd st.model) = .ok flat →
      link.queryValues (freq_cmd st.model) = .ok freqd →
      (raw_segments fit st.cfg.track_freq st.cfg.track_enabled freqd
          (sweep_ampl rsqrt flat) st.cfg.segments 0).2.1 = true →
      ∃ tr, vna_sample rsqrt fit link st t =
          .ok ((none, { st with cfg := { st.cfg with
              segments := (raw_segments fit st.cfg.track_freq st.cfg.track_enabled freqd
                (sweep_ampl rsqrt flat) st.cfg.segments 0).2.2 } }), t ++ tr) ∧
        (st.cfg.track_freq && st.cfg.track_enabled = true →
          Event.writeValues (reprogram_cmd st.model)
            (set_segments_data st.model
              (raw_segments fit st.cfg.track_freq st.cfg.track_enabled freqd
                (sweep_ampl rsqrt flat) st.cfg.segments 0).2.2) ∈ tr)) := by
  refine ⟨?_, ?_, ?_⟩
  · intro fit tf te freq ampl segs start i seg hget hena hfit
    rw [raw_segments_get fit tf te freq ampl segs start i seg hget]
    simp [raw_update, hena, hfit]
  · intro tf te f a seg htfte
    rw [Bool.and_eq_true] at htfte
    obtain ⟨htf, hte⟩ := htfte
    simp only [decide_eq_true_eq] at hte
    by_cases hs : linregress_slope f a > 0 <;>
      simp [nudge_segment, htf, hte, hs]
  · intro rsqrt fit link st flat freqd opc t hum hw hwv hq hsw hfr hlost
    obtain ⟨tr0, heq, hmem⟩ := @raw_branch_lost rsqrt fit link st flat freqd
      hw hwv hsw hfr hlost
      (t ++ [.write (if st.model = "N5232A" then ":INIT:IMM" else ":TRIG:SING"),
             .query "*OPC?"])
    refine ⟨[.write (if st.model = "N5232A" then ":INIT:IMM" else ":TRIG:SING"),
      .query "*OPC?", .queryValues (sweep_cmd st.model),
      .queryValues (freq_cmd st.model)] ++ tr0, ?_, ?_⟩
    · rw [vna_sample_raw_mode hum hw hq, heq]
      simp [List.append_assoc]
    · intro htk
      simp only [List.mem_append]
      exact Or.inr (hmem htk)

/-- Concrete raw-mode link for the C3 witness: the sweep-data query
returns the interleaved complex trace `[3, 4, 0, 1]` (amplitudes 25 and 1
under the identity square-root stub) and the frequency query returns
`[10, 20]`, so the windowed amplitude has negative slope. -/
def c3link : Link := allOkLink [3, 4, 0, 1] [10, 20] fun _ => (0, 0, 0, 0)

/-- Concrete session state for the C3 witness: one enabled segment,
raw-sweep mode, frequency tracking and the master gate on. -/
def c3st : VNAState := { cfg := wcfg, model := "E5071C", last_sample := none }

/-- C3 witness: with a fit oracle that always fails, the concrete cycle
returns no Sample, keeps the nudged segment list, and issues the
reprogramming segment-list write. -/
theorem C3_lost_track_nudge_witness :
    ∃ tr, vna_sample (fun q => q) (fun _ _ => none) c3link c3st [] =
        .ok ((none, { c3st with cfg := { c3st.cfg with
            segments := (raw_segments (fun _ _ => none) c3st.cfg.track_freq
              c3st.cfg.track_enabled [10, 20] (sweep_ampl (fun q => q) [3, 4, 0, 1])
              c3st.cfg.segments 0).2.2 } }), [] ++ tr) ∧
      Event.writeValues (reprogram_cmd c3st.model)
        (set_segments_data c3st.model
          (raw_segments (fun _ _ => none) c3st.cfg.track_freq c3st.cfg.track_enabled
            [10, 20] (sweep_ampl (fun q => q) [3, 4, 0, 1]) c3st.cfg.segments 0).2.2)
        ∈ tr := by
  obtain ⟨tr, heq, hmem⟩ := C3_lost_track_nudge.2.2 (fun q => q) (fun _ _ => none)
    c3link c3st [3, 4, 0, 1] [10, 20] "Agilent,E5071C,SN,FW" []
    rfl (fun _ => rfl) (fun _ _ => rfl) rfl rfl rfl rfl
  exact ⟨tr, heq, hmem rfl⟩

theorem track_pass_length (tf ts : Bool) (k : ℚ) (segs : List Segment)
    (rs : List (Option (ℚ × ℚ))) :
    (track_pass tf ts k segs rs).1.length = segs.length := by
  rw [(track_pass_spec tf ts k segs rs).1]
  simp only [List.length_append, List.length_zipWith, List.length_drop]
  omega

theorem tracked_cfg_use_markers (cfg : VNAConfig) (dF dB : List (Option ℚ)) :
    (tracked_cfg cfg dF dB).1.use_markers = cfg.use_markers := by
  unfold tracked_cfg
  by_cases h : tracking_armed cfg <;> simp [h]

theorem tracked_cfg_seg_length (cfg : VNAConfig) (dF dB : List (Option ℚ)) :
    (tracked_cfg cfg dF dB).1.segments.length = cfg.segments.length := by
  unfold tracked_cfg
  by_cases h : tracking_armed cfg <;> simp [h, track_pass_length]

/-- Session state after an accepted marker readout: cache updated to the
readout's triple, configuration possibly retracked. -/
def marker_next_state (st : VNAState) (rows : List Fit4) : VNAState :=
  { cfg := (tracked_cfg st.cfg (marker_sample_data rows).f0
      (marker_sample_data rows).bw).1,
    model := st.model, last_sample := some (arr3 rows) }

theorem marker_stale_cycle {rsqrt : ℚ → ℚ} {fit : FitOracle} {link : Link}
    {st : VNAState} {rows : List Fit4}
    (hum : st.cfg.use_markers = true)
    (hrd : readMarkers link st.cfg.segments.length = .ok rows)
    (hlast : st.last_sample = some (arr3 rows)) (t : List Event) :
    vna_sample rsqrt fit link st t =
      .ok ((none, st), t ++ [.markerRead st.cfg.segments.length]) := by
  rw [vna_sample_marker_mode hum]
  exact marker_branch_stale hrd (by simp [stale, hlast]) t

/-- C4.  Marker-mode staleness.  (i) If the `(bw, f0, q)` triple read in a
cycle equals the previously accepted one, the cycle returns no result and
the state — the staleness cache included — is unchanged.  (ii) Hence two
consecutive identical marker readouts yield exactly one accepted Sample
(the first cycle, which records the triple in the cache before tracking)
and one no-result (the second cycle, which leaves the cache holding the
previously accepted triple). -/
theorem C4_marker_staleness :
    (∀ (rsqrt : ℚ → ℚ) (fit : FitOracle) (link : Link) (st : VNAState)
        (rows : List Fit4) (t : List Event),
      st.cfg.use_markers = true →
      readMarkers link st.cfg.segments.length = .ok rows →
      st.last_sample = some (arr3 rows) →
      vna_sample rsqrt fit link st t =
        .ok ((none, st), t ++ [.markerRead st.cfg.segments.length])) ∧
    (∀ (rsqrt : ℚ → ℚ) (fit : FitOracle) (link : Link) (st : VNAState)
        (rows : List Fit4) (opc : String) (t t2 : List Event),
      st.cfg.use_markers = true →
      (∀ c, link.write c = .ok ()) →
      (∀ c p, link.writeValues c p = .ok ()) →
      link.query "*OPC?" = .ok opc →
      readMarkers link st.cfg.segments.length = .ok rows →
      stale st.last_sample (arr3 rows) = false →
      ∃ st1 tr, vna_sample rsqrt fit link st t =
          .ok ((some (marker_sample_data rows), st1), t ++ tr) ∧
        st1.last_sample = some (arr3 rows) ∧
        vna_sample rsqrt fit link st1 t2 =
          .ok ((none, st1), t2 ++ [.markerRead st.cfg.segments.length])) := by
  constructor
  · intro rsqrt fit link st rows t hum hrd hlast
    exact marker_stale_cycle hum hrd hlast t
  · intro rsqrt fit link st rows opc t t2 hum hw hwv hq hrd hs
    obtain ⟨tr, heq, _⟩ := marker_branch_fresh hrd hs hw hwv hq t
    refine ⟨marker_next_state st rows,
      Event.markerRead st.cfg.segments.length :: tr, ?_, rfl, ?_⟩
    · rw [vna_sample_marker_mode hum, heq]
      simp [marker_next_state, List.append_assoc]
    · have hum1 : (marker_next_state st rows).cfg.use_markers = true := by
        rw [marker_next_state, tracked_cfg_use_markers]
        exact hum
      have hlen : (marker_next_state st rows).cfg.segments.length =
          st.cfg.segments.length := tracked_cfg_seg_length st.cfg _ _
      have := @marker_stale_cycle rsqrt fit link (marker_next_state st rows) rows
        hum1 (by rw [hlen]; exact hrd) rfl t2
      simpa [hlen] using this

/-- Concrete marker-mode configuration for the C4 witness. -/
def c4cfg : VNAConfig :=
  { segments := [wseg], track_freq := false, track_span := false, use_markers := true,
    bw_factor := 8, bw_factor_override := none, track_enabled := true }

/-- Concrete marker-mode session state with an empty staleness cache. -/
def c4st : VNAState := { cfg := c4cfg, model := "E5071C", last_sample := none }

/-- Concrete link whose marker query always reports `(1, 2, 3, 4)`. -/
def c4link : Link := allOkLink [] [] fun _ => (1, 2, 3, 4)

/-- C4 witness: against a device that reports the same marker quadruple in
both cycles, the first cycle accepts the Sample and records the triple,
the second returns no result with the cache unchanged. -/
theorem C4_marker_staleness_witness :
    ∃ st1 tr, vna_sample (fun q => q) (fun _ _ => none) c4link c4st [] =
        .ok ((some (marker_sample_data [(1, 2, 3, 4)]), st1), [] ++ tr) ∧
      st1.last_sample = some (arr3 [(1, 2, 3, 4)]) ∧
      vna_sample (fun q => q) (fun _ _ => none) c4link st1 [] =
        .ok ((none, st1), [] ++ [.markerRead c4st.cfg.segments.length]) :=
  C4_marker_staleness.2 (fun q => q) (fun _ _ => none) c4link c4st
    [(1, 2, 3, 4)] "Agilent,E5071C,SN,FW" [] [] rfl (fun _ => rfl) (fun _ _ => rfl)
    rfl rfl rfl

/-- C9.  N5232A model handling.  (i) Under a link whose transport succeeds,
whenever the identity string parses to the model "N5232A", `setup` returns
a session whose `use_markers` flag is FORCED to `false` — whatever the
configured value was — with the model recorded; (ii) with `use_markers`
false, a sampling cycle never consults the marker-data oracle: its outcome
is identical for any two marker oracles, so marker mode is unreachable on
that model. -/
theorem C9_n5232a_forces_raw :
    (∀ (link : Link) (config : ConfigInput) (devname : String) (t : List Event),
      link.resetR = .ok () →
      link.query "*IDN?" = .ok devname →
      (∀ c, link.write c = .ok ()) →
      (∀ c p, link.writeValues c p = .ok ()) →
      parse_model devname = "N5232A" →
      ∃ tr, setup link config t =
        .ok ({ cfg := { VNAConfig.init config with use_markers := false },
               model := "N5232A", last_sample := none }, t ++ tr)) ∧
    (∀ (rsqrt : ℚ → ℚ) (fit : FitOracle) (l : Link)
        (md md' : ℕ → Except TransportError Fit4) (st : VNAState) (t : List Event),
      st.cfg.use_markers = false →
      vna_sample rsqrt fit { l with markerData := md } st t =
        vna_sample rsqrt fit { l with markerData := md' } st t) := by
  constructor
  · intro link config devname t hr hq hw hwv hparse
    refine ⟨[.reset, .query "*IDN?", .write ":CALC1:PAR1:DEF", .write ":INIT1:CONT",
      .write ":TRIG:SOUR MAN", .write ":SENS1:SWE:TYPE", .write ":SENS1:SWE:DELAY",
      .write ":SENS1:SWE:GEN"] ++
      set_segments_events "N5232A" (VNAConfig.init config).segments ++
      [.write ":DISP:WIND1:TRAC1:Y:AUTO"], ?_⟩
    simp [setup, M_bind_apply, M_pure_apply, doReset_ok hr, doQuery_ok hq,
      except_bind_ok, hparse, doWrite_ok (hw _), set_segmentsM_ok hw hwv,
      List.append_assoc]
  · intro rsqrt fit l md md' st t hum
    simp only [vna_sample, hum, Bool.not_false, if_true]
    rfl

/-- Concrete all-ok link whose identity query reports an N5232A (with
whitespace, exercising the strip). -/
def c9link : Link :=
  { resetR := .ok (),
    write := fun _ => .ok (),
    query := fun _ => .ok "Keysight, N5232A ,SN,FW",
    queryValues := fun _ => .ok [],
    writeValues := fun _ _ => .ok (),
    markerData := fun _ => .ok (0, 0, 0, 0) }

/-- Concrete configuration that ASKS for marker mode. -/
def c9cfg : ConfigInput :=
  { segments := [("r", { f0 := 7, span := 2, points := 3, ifbw := 1, power := 0 })],
    track_frequency := false, track_span := false, use_markers := true,
    bandwidth_factor := 8 }

/-- C9 witness: setup against the concrete N5232A device forces
`use_markers := false` even though the configuration asked for markers,
and a raw-mode sampling cycle is oblivious to the marker oracle (an
always-failing and an always-succeeding marker oracle give identical
outcomes). -/
theorem C9_n5232a_forces_raw_witness :
    (∃ tr, setup c9link c9cfg [] =
      .ok ({ cfg := { VNAConfig.init c9cfg with use_markers := false },
             model := "N5232A", last_sample := none }, [] ++ tr)) ∧
    vna_sample (fun q => q) (fun _ _ => none)
        { c9link with markerData := fun _ => .error ⟨7⟩ } c3st [] =
      vna_sample (fun q => q) (fun _ _ => none)
        { c9link with markerData := fun _ => .ok (9, 9, 9, 9) } c3st [] :=
  ⟨C9_n5232a_forces_raw.1 c9link c9cfg "Keysight, N5232A ,SN,FW" [] rfl rfl
      (fun _ => rfl) (fun _ _ => rfl) (by decide),
   C9_n5232a_forces_raw.2 (fun q => q) (fun _ _ => none) c9link
      (fun _ => .error ⟨7⟩) (fun _ => .ok (9, 9, 9, 9)) c3st [] rfl⟩

/-- Concrete link whose value queries fail with transport error 42. -/
def c6link : Link :=
  { resetR := .ok (),
    write := fun _ => .ok (),
    query := fun _ => .ok "OPC",
    queryValues := fun _ => .error ⟨42⟩,
    writeValues := fun _ _ => .ok (),
    markerData := fun _ => .ok (0, 0, 0, 0) }

/-- Concrete link whose reset fails with transport error 3. -/
def c6badReset : Link := { c6link with resetR := .error ⟨3⟩ }

/-- Concrete marker-mode link whose marker queries fail with transport
error 5. -/
def c6mlink : Link := { c6link with markerData := fun _ => .error ⟨5⟩ }

/-- C6.  Transport-error scope, as amended.  (i) In MARKER mode a
transport error during the marker-data reads is recoverable: the cycle
returns no result and the session state (staleness cache included) is
unchanged.  (ii) A transport error raised while `setup` resets the
instrument, or while it queries the device identity, propagates to the
caller unchanged (fatal).  Raw-sweep-mode read errors, by contrast,
propagate — see the counterexample. -/
theorem C6_transport_error_scope :
    (∀ (rsqrt : ℚ → ℚ) (fit : FitOracle) (link : Link) (st : VNAState)
        (e : TransportError) (t : List Event),
      st.cfg.use_markers = true →
      readMarkers link st.cfg.segments.length = .error e →
      vna_sample rsqrt fit link st t =
        .ok ((none, st), t ++ [.markerRead st.cfg.segments.length])) ∧
    (∀ (link : Link) (config : ConfigInput) (e : TransportError) (t : List Event),
      link.resetR = .error e → setup link config t = .error e) ∧
    (∀ (link : Link) (config : ConfigInput) (e : TransportError) (t : List Event),
      link.resetR = .ok () → link.query "*IDN?" = .error e →
      setup link config t = .error e) := by
  refine ⟨?_, ?_, ?_⟩
  · intro rsqrt fit link st e t hum hrd
    rw [vna_sample_marker_mode hum]
    exact marker_branch_read_error hrd t
  · intro link config e t hr
    simp [setup, M_bind_apply, doReset_error hr, except_bind_error]
  · intro link config e t hr hq
    simp [setup, M_bind_apply, doReset_ok hr, doQuery_error hq, except_bind_ok,
      except_bind_error]

/-- C6 witness: the concrete marker-mode cycle against a link with failing
marker reads yields no result with the state intact, and a concrete setup
against a link with a failing reset propagates the error. -/
theorem C6_transport_error_scope_witness :
    vna_sample (fun q => q) (fun _ _ => none) c6mlink c4st [] =
      .ok ((none, c4st), [] ++ [.markerRead c4st.cfg.segments.length]) ∧
    setup c6badReset c9cfg [] = .error ⟨3⟩ :=
  ⟨C6_transport_error_scope.1 (fun q => q) (fun _ _ => none) c6mlink c4st ⟨5⟩ []
      rfl rfl,
   C6_transport_error_scope.2.1 c6badReset c9cfg ⟨3⟩ [] rfl⟩

/-- C6 counterexample: the claim's "in either acquisition mode" is false.
In RAW-SWEEP mode a transport error during the cycle's sweep-data read is
NOT converted into a no-result cycle: the concrete cycle propagates the
error to the caller. -/
theorem C6_raw_propagates_cex :
    vna_sample (fun q => q) (fun _ _ => none) c6link c3st [] = .error ⟨42⟩ := by
  rfl

theorem flatten_map_length {α : Type} (f : α → List SegVal) (k : ℕ)
    (hf : ∀ x, (f x).length = k) :
    ∀ l : List α, ((l.map f).flatten).length = k * l.length
  | [] => by simp
  | x :: l => by
    simp [flatten_map_length f k hf l, hf x, Nat.mul_succ, Nat.add_comm]

theorem readMarkersFrom_length {link : Link} :
    ∀ (i n : ℕ) (rows : List Fit4),
      readMarkersFrom link i n = .ok rows → rows.length = n
  | _, 0, rows => by
    intro h
    simp only [readMarkersFrom] at h
    cases h
    rfl
  | i, n + 1, rows => by
    intro h
    simp only [readMarkersFrom, bind, Except.bind] at h
    cases hm : link.markerData (i + 1) with
    | error e => rw [hm] at h; cases h
    | ok r =>
      rw [hm] at h
      cases hrest : readMarkersFrom link (i + 1) n with
      | error e => rw [hrest] at h; cases h
      | ok rest =>
        rw [hrest] at h
        cases h
        simp [readMarkersFrom_length (i + 1) n rest hrest]

/-- C5.  Disabled-segment accounting, as amended.  (i) Enabled and
disabled counts partition the list: with `N` segments of which `k` are
disabled there are `N − k` enabled ones.  (ii)/(iii) The programmed
payload holds exactly one tuple per ENABLED segment (7 values each in the
N5232A encoding after the 2-value header, 5 values each in the other
encoding after the 7-value header) and the count slot (index 1,
respectively 6) holds the enabled count.  (iv) Disabled segments
contribute nothing: the payload of the enabled sublist is the payload of
the full list.  (v) In raw-sweep mode, when no segment is lost the Sample
has one slot per segment in model order and a slot holds the absent
marker exactly when its segment is disabled.  (vi) In marker mode the
device is queried once per segment — disabled ones included — and every
slot holds a present (queried) value; disabled segments' slots are NOT
absent (see the counterexample). -/
theorem C5_disabled_accounting :
    (∀ segs : List Segment,
      (segs.filter fun s => s.enabled).length +
        (segs.filter fun s => !s.enabled).length = segs.length) ∧
    (∀ segs : List Segment,
      (set_segments_data "N5232A" segs).length =
        2 + 7 * (segs.filter fun s => s.enabled).length ∧
      (set_segments_data "N5232A" segs)[1]? =
        some (.num (segs.filter fun s => s.enabled).length)) ∧
    (∀ (model : String) (segs : List Segment), model ≠ "N5232A" →
      (set_segments_data model segs).length =
        7 + 5 * (segs.filter fun s => s.enabled).length ∧
      (set_segments_data model segs)[6]? =
        some (.num (segs.filter fun s => s.enabled).length)) ∧
    (∀ (model : String) (segs : List Segment),
      set_segments_data model (segs.filter fun s => s.enabled) =
        set_segments_data model segs) ∧
    (∀ (fit : FitOracle) (tf te : Bool) (freq ampl : List ℚ) (segs : List Segment),
      (raw_segments fit tf te freq ampl segs 0).2.1 = false →
      (raw_sample_data (raw_segments fit tf te freq ampl segs 0).1).bw.length
          = segs.length ∧
      (∀ (i : ℕ) (seg : Segment), segs[i]? = some seg →
        ((raw_sample_data (raw_segments fit tf te freq ampl segs 0).1).bw[i]?
            = some none ↔ seg.enabled = false))) ∧
    (∀ (link : Link) (n : ℕ) (rows : List Fit4), readMarkers link n = .ok rows →
      rows.length = n ∧ (marker_sample_data rows).bw.length = n ∧
      ∀ i, i < n → ∃ v, (marker_sample_data rows).bw[i]? = some (some v)) := by
  refine ⟨?_, ?_, ?_, ?_, ?_, ?_⟩
  · intro segs
    induction segs with
    | nil => rfl
    | cons s l ih =>
      by_cases h : s.enabled <;> simp [List.filter_cons, h] <;> omega
  · intro segs
    constructor
    · simp [set_segments_data,
        flatten_map_length seg_tuple_n5232a 7 (fun _ => rfl)]
      omega
    · simp [set_segments_data]
  · intro model segs hmod
    constructor
    · simp [set_segments_data, hmod,
        flatten_map_length seg_tuple_e5071 5 (fun _ => rfl)]
      omega
    · simp [set_segments_data, hmod]
  · intro model segs
    have hff : (segs.filter fun s => s.enabled).filter (fun s => s.enabled)
        = segs.filter fun s => s.enabled := by
      simp [List.filter_filter]
    simp [set_segments_data, hff]
  · intro fit tf te freq ampl segs hnl
    constructor
    · simp [raw_sample_data, raw_segments_results_length fit tf te freq ampl segs 0 hnl]
    · intro i seg hget
      have hres := raw_segments_results_get fit tf te freq ampl segs 0 i seg hnl hget
      simp only [raw_sample_data, List.getElem?_map, hres, Option.map_some]
      by_cases h : seg.enabled
      · have hfit : fit (windowSlice (0 + enabled_offset segs i) seg.points freq)
            (windowSlice (0 + enabled_offset segs i) seg.points ampl) ≠ none := by
          intro hno
          have : (raw_segments fit tf te freq ampl segs 0).2.1 = true :=
            (raw_segments_lost_iff fit tf te freq ampl segs 0).mpr
              ⟨i, seg, hget, h, hno⟩
          rw [this] at hnl
          cases hnl
        cases hf : fit (windowSlice (0 + enabled_offset segs i) seg.points freq)
            (windowSlice (0 + enabled_offset segs i) seg.points ampl) with
        | none => exact absurd hf hfit
        | some r => simp [h, hf]
      · simp [h]
  · intro link n rows hrd
    have hlen : rows.length = n := readMarkersFrom_length 0 n rows hrd
    refine ⟨hlen, by simp [marker_sample_data, hlen], ?_⟩
    intro i hi
    rw [← hlen] at hi
    refine ⟨rows[i].1, ?_⟩
    simp [marker_sample_data, List.getElem?_map, List.getElem?_eq_getElem hi]

/-- Concrete disabled segment. -/
def c5dseg : Segment := { wseg with enabled := false }

/-- C5 witness: on the concrete two-segment list (one enabled, one
disabled) the E5071 payload carries one 5-value tuple and enabled-count 1
in slot 6, and in raw-sweep mode (all fits succeeding) the Sample has one
slot per segment with the disabled segment's slot absent. -/
theorem C5_disabled_accounting_witness :
    ("E5071C" : String) ≠ "N5232A" ∧
    (set_segments_data "E5071C" [wseg, c5dseg]).length =
      7 + 5 * ([wseg, c5dseg].filter fun s => s.enabled).length ∧
    (set_segments_data "E5071C" [wseg, c5dseg])[6]? =
      some (.num ([wseg, c5dseg].filter fun s => s.enabled).length) ∧
    (raw_segments (fun _ _ => some (1, 2, 3, 4)) false false [0, 1, 2] [1, 2, 3]
      [wseg, c5dseg] 0).2.1 = false ∧
    ((raw_sample_data (raw_segments (fun _ _ => some (1, 2, 3, 4)) false false
        [0, 1, 2] [1, 2, 3] [wseg, c5dseg] 0).1).bw[1]? = some none ↔
      c5dseg.enabled = false) := by
  have hmod : ("E5071C" : String) ≠ "N5232A" := by decide
  have hnl : (raw_segments (fun _ _ => some (1, 2, 3, 4)) false false [0, 1, 2]
      [1, 2, 3] [wseg, c5dseg] 0).2.1 = false := rfl
  obtain ⟨h1, h2⟩ := C5_disabled_accounting.2.2.1 "E5071C" [wseg, c5dseg] hmod
  have h3 := (C5_disabled_accounting.2.2.2.2.1 (fun _ _ => some (1, 2, 3, 4))
    false false [0, 1, 2] [1, 2, 3] [wseg, c5dseg] hnl).2 1 c5dseg rfl
  exact ⟨hmod, h1, h2, hnl, h3⟩

/-- Concrete marker-mode session whose single segment is DISABLED. -/
def c5st : VNAState :=
  { cfg := { c4cfg with segments := [c5dseg] }, model := "E5071C",
    last_sample := none }

/-- C5 counterexample: in MARKER mode a disabled segment's slot does NOT
hold the absent marker.  The concrete cycle queries the marker even for
the disabled segment and stores the queried quadruple `(1, 2, 3, 4)`, so
the Sample's `bw` slot is `some 1`, not the absent `none`. -/
theorem C5_marker_disabled_slot_cex :
    c5dseg.enabled = false ∧
    vna_sample (fun q => q) (fun _ _ => none) c4link c5st [] =
      .ok ((some (marker_sample_data [(1, 2, 3, 4)]),
        { c5st with last_sample := some (arr3 [(1, 2, 3, 4)]) }),
        [.markerRead 1]) ∧
    (marker_sample_data [(1, 2, 3, 4)]).bw = [some 1] := by
  exact ⟨rfl, rfl, rfl⟩
